import Mathlib

/-!
Shallow embedding of the morphologica `ShapeAnalysis` core
(src/src/ShapeAnalysis.h) over a hexagonal grid, together with theorems
settling the frozen claims about it.

The scalar template parameter `Flt` is embedded as `ℚ`; all comparisons in
the source are order/equality comparisons on `Flt`, which translate
directly.  The C++ float literals `-1e7`, `1e7`, `0.001` and
`numeric_limits<Flt>::max()` become the exact rationals `-(10^7)`, `10^7`,
`1/1000` and the distinguished constant `Fmax`.

`Hex.h` and `DirichVtx.h` are not part of the sources; the `Hex` and
`DirichVtx` structures and their small helper predicates are modelled from
the spec (see the doc comments on each).  All code of `ShapeAnalysis.h`
itself (contours, region labelling, vertex detection, edge walking, domain
closure and orchestration) is translated from the source, statement by
statement, with mutation made explicit and the two unbounded loops
(`while (!partner_found)` in `walk_common`, and the recursion of
`process_domain`) given explicit fuel; running out of fuel is reported as a
distinguished error value.
-/

set_option allowUnsafeReducibility true
attribute [local semireducible] Rat.mul Rat.add Rat.sub Rat.inv Rat.ofScientific

namespace MorphSpec

instance {ε α : Type} [DecidableEq ε] [DecidableEq α] : DecidableEq (Except ε α) :=
  fun x y =>
    match x, y with
    | Except.error a, Except.error b =>
      if h : a = b then Decidable.isTrue (congrArg Except.error h)
      else Decidable.isFalse (fun hc => h (Except.error.inj hc))
    | Except.ok a, Except.ok b =>
      if h : a = b then Decidable.isTrue (congrArg Except.ok h)
      else Decidable.isFalse (fun hc => h (Except.ok.inj hc))
    | Except.error _, Except.ok _ => Decidable.isFalse (fun hc => Except.noConfusion hc)
    | Except.ok _, Except.error _ => Decidable.isFalse (fun hc => Except.noConfusion hc)

/-- Stand-in for `numeric_limits<Flt>::max()`: a distinguished huge rational,
used by the source only as a sentinel ("unset") value. -/
def Fmax : ℚ := 10 ^ 38

/-- Modelled from the spec: a cell of the hexagonal lattice (`Hex.h` is not in
src/).  Per §3 of the spec a cell has an integer grid index `vi`, a planar
centre `(x, y)`, up to six neighbour relations in fixed directions
(0=E, 1=NE, 2=NW, 3=W, 4=SW, 5=SE; an absent neighbour is representable), a
`boundaryHex` flag, and six corner coordinates derivable from the centre and
the grid's geometric constants (short radius `sr`, long radius `lr`, spacing
`d`).  Neighbour entries are positions into the grid's cell list. -/
structure Hex where
  vi : Nat
  x : ℚ
  y : ℚ
  boundaryHex : Bool
  nbs : List (Option Nat)
  d : ℚ
  sr : ℚ
  lr : ℚ
deriving DecidableEq, Repr

instance : Inhabited Hex := ⟨⟨0, 0, 0, false, [], 0, 0, 0⟩⟩

/-- Neighbour of a hex in direction `i` (position into the grid's cell list),
`none` when absent. -/
def Hex.nb (h : Hex) (i : Nat) : Option Nat := h.nbs.getD i none

/-- Modelled from the spec: `Hex::onBoundary()` reports whether the cell sits
on the outer grid boundary, i.e. the `boundaryHex` flag. -/
def Hex.onBoundary (h : Hex) : Bool := h.boundaryHex

/-- Whether the hex has a neighbour in direction `i`. -/
def Hex.hasNb (h : Hex) (i : Nat) : Bool := (h.nb i).isSome

/-- Modelled from the spec: corner `i` of a cell, derived from the centre and
the geometric constants (§3).  Corner `i` lies between neighbour directions
`i` and `i+1`: corner 0 is the east-by-north-east corner `(x+sr, y+lr/2)`,
corner 1 the north corner `(x, y+lr)`, and so on anticlockwise. -/
def Hex.vertexCoord (h : Hex) (i : Nat) : ℚ × ℚ :=
  match i % 6 with
  | 0 => (h.x + h.sr, h.y + h.lr / 2)
  | 1 => (h.x, h.y + h.lr)
  | 2 => (h.x - h.sr, h.y + h.lr / 2)
  | 3 => (h.x - h.sr, h.y - h.lr / 2)
  | 4 => (h.x, h.y - h.lr)
  | _ => (h.x + h.sr, h.y - h.lr / 2)

/-- Modelled from the spec: `Hex::compare_vertex_coord` — geometric
coordinate equality of corner `i` against a coordinate, within the fixed
tolerance `d/100` in each component (§7: all geometric coordinate equality
tests use a fixed tolerance). -/
def Hex.compareVertexCoord (h : Hex) (i : Nat) (c : ℚ × ℚ) : Bool :=
  decide (|(h.vertexCoord i).1 - c.1| < h.d / 100) &&
  decide (|(h.vertexCoord i).2 - c.2| < h.d / 100)

/-- Modelled from the spec: `Hex::compare_coord` — tolerance comparison of the
cell centre against a coordinate. -/
def Hex.compareCoord (h : Hex) (c : ℚ × ℚ) : Bool :=
  decide (|h.x - c.1| < h.d / 100) && decide (|h.y - c.2| < h.d / 100)

/-- The hex grid: exclusively owns the cell collection (§3); `d` is the
grid-wide hex-to-hex distance returned by `HexGrid::getd()`. -/
structure HexGrid where
  hexen : List Hex
  d : ℚ
deriving DecidableEq, Repr

/-- Cell lookup by position in the grid's cell list (the embedding of a
`list<Hex>::iterator`). -/
def hexAt (hg : HexGrid) (i : Nat) : Hex := hg.hexen.getD i default

/-- Value of a per-cell field at cell index `i` (`f[i]`). -/
def fAt (f : List ℚ) (i : Nat) : ℚ := f.getD i 0

/-- Value of field `i` at cell index `k` (`f[i][k]`). -/
def fAt2 (f : List (List ℚ)) (i k : Nat) : ℚ := (f.getD i []).getD k 0

/-! ### Contour extraction (`get_contours`, ShapeAnalysis.h lines 47-109) -/

/-- The max/min pass of `get_contours`: fold over all hexes, skipping those
with `onBoundary() == true`, updating `maxf` (initial `-1e7`) and `minf`
(initial `+1e7`) against every field value at the hex. -/
def gcMinMax (hg : HexGrid) (f : List (List ℚ)) : ℚ × ℚ :=
  hg.hexen.foldl
    (fun mm h =>
      if h.onBoundary = false then
        (List.range f.length).foldl
          (fun mm2 i =>
            let mx := if fAt2 f i h.vi > mm2.1 then fAt2 f i h.vi else mm2.1
            let mn := if fAt2 f i h.vi < mm2.2 then fAt2 f i h.vi else mm2.2
            (mx, mn))
          mm
      else mm)
    (-(10 ^ 7 : ℚ), (10 ^ 7 : ℚ))

/-- Normalised value of field `i` at cell `k`:
`norm_f[i][k] = (f[i][k] - minf) * scalef` with `scalef = 1/(maxf - minf)`. -/
def gcNorm (hg : HexGrid) (f : List (List ℚ)) (i k : Nat) : ℚ :=
  let mm := gcMinMax hg f
  (fAt2 f i k - mm.2) * (1 / (mm.1 - mm.2))

/-- One disjunct of the neighbour test of `get_contours`: direction `k`
exists and the neighbour's normalised value is strictly below threshold. -/
def gcNbBelow (hg : HexGrid) (f : List (List ℚ)) (threshold : ℚ) (i : Nat)
    (h : Hex) (k : Nat) : Bool :=
  match h.nb k with
  | some n => decide (gcNorm hg f i (hexAt hg n).vi < threshold)
  | none => false

/-- The collate condition of `get_contours` for one hex and field `i`. -/
def gcMember (hg : HexGrid) (f : List (List ℚ)) (threshold : ℚ) (i : Nat)
    (h : Hex) : Bool :=
  if h.onBoundary = false then
    decide (gcNorm hg f i h.vi > threshold) &&
      (gcNbBelow hg f threshold i h 0 || gcNbBelow hg f threshold i h 1 ||
       gcNbBelow hg f threshold i h 2 || gcNbBelow hg f threshold i h 3 ||
       gcNbBelow hg f threshold i h 4 || gcNbBelow hg f threshold i h 5)
  else
    decide (gcNorm hg f i h.vi > threshold)

/-- `ShapeAnalysis::get_contours`: for each field, the hexes passing the
collate condition, in grid iteration order. -/
def get_contours (hg : HexGrid) (f : List (List ℚ)) (threshold : ℚ) :
    List (List Hex) :=
  (List.range f.length).map (fun i => hg.hexen.filter (gcMember hg f threshold i))

/-! ### Region labelling (`dirichlet_regions`, ShapeAnalysis.h lines 116-138) -/

/-- The inner loop of `dirichlet_regions` for one hex: running maximum
initialised to `-1e7`; on every strict improvement by field `i`, write
`i/N` at position `h.vi` of the result vector. -/
def drInner (f : List (List ℚ)) (N : Nat) (h : Hex) (rtn : List ℚ) : List ℚ :=
  ((List.range N).foldl
    (fun st i =>
      if fAt2 f i h.vi > st.1 then
        (fAt2 f i h.vi, st.2.set h.vi ((i : ℚ) / (N : ℚ)))
      else st)
    ((-(10 ^ 7) : ℚ), rtn)).2

/-- `ShapeAnalysis::dirichlet_regions`: winner-take-all labelling; the result
vector has `f[0].size()` entries initialised to `0.0`. -/
def dirichlet_regions (hg : HexGrid) (f : List (List ℚ)) : List ℚ :=
  hg.hexen.foldl (fun rtn h => drInner f f.length h rtn)
    (List.replicate (f.getD 0 []).length 0)

/-! ### Dirichlet vertices (`DirichVtx`) -/

/-- Modelled from the spec: `DirichVtx.h` is not in src/.  Per §3 a Dirichlet
vertex carries its location `v`, the identity `f` of its own domain, the
ordered pair `neighb` of identities bordering the two edges leaving it
(`-1` is the sentinel for "no domain here — grid boundary"), the owning cell
reference `hi` (embedded as the cell's position in the grid list), an
`onBoundary` flag, a `closed` flag, a tolerance base `d` (the grid spacing,
passed to the constructor in the source), and two path buffers. -/
structure DirichVtx where
  v : ℚ × ℚ
  d : ℚ
  f : ℚ
  neighb : ℚ × ℚ
  hi : Nat
  onBoundary : Bool
  closed : Bool
  pathto_next : List (ℚ × ℚ)
  pathto_neighbour : List (ℚ × ℚ)
deriving DecidableEq, Repr

/-- Modelled from the spec: a default-constructed `DirichVtx` is "unset"
(location at the sentinel), with its flags false and buffers empty; the
source relies on the constructor leaving `onBoundary` false (it sets
`a.onBoundary = true` explicitly after construction in the boundary branch
of `vertex_test`) and on `closed` starting false (§3 lifecycle: vertices are
created open and closed during walking). -/
instance : Inhabited DirichVtx :=
  ⟨⟨(Fmax, Fmax), 0, -1, (-1, -1), 0, false, false, [], []⟩⟩

/-- Modelled from the spec: the `DirichVtx` constructor used at the call
sites in `vertex_test` — `DirichVtx(coord, hg->getd(), f, neighb_pair, hex)`;
`onBoundary` and `closed` initialise false, buffers empty. -/
def DirichVtx.mk' (c : ℚ × ℚ) (d fid : ℚ) (nb : ℚ × ℚ) (hi : Nat) : DirichVtx :=
  ⟨c, d, fid, nb, hi, false, false, [], []⟩

/-- Modelled from the spec: `DirichVtx::unset()` — the vertex still has its
default sentinel location. -/
def DirichVtx.unset (w : DirichVtx) : Bool := decide (w.v = ((Fmax : ℚ), (Fmax : ℚ)))

/-- Modelled from the spec: `DirichVtx::compare(coord)` — tolerance
comparison of the vertex location against a coordinate (tolerance `d/100`,
as for the cell comparisons). -/
def DirichVtx.compare (w : DirichVtx) (c : ℚ × ℚ) : Bool :=
  decide (|w.v.1 - c.1| < w.d / 100) && decide (|w.v.2 - c.2| < w.d / 100)

/-! ### Vertex detection (`vertex_test`, ShapeAnalysis.h lines 144-241) -/

/-- The set `n_ids` of distinct identities among a hex and its existing
neighbours (the source inserts into a `std::set<Flt>`; its size is the
number of distinct values). -/
def nIds (hg : HexGrid) (f : List ℚ) (h : Hex) : List ℚ :=
  (fAt f h.vi ::
    (List.range 6).filterMap (fun ni => (h.nb ni).map (fun n => fAt f (hexAt hg n).vi))).dedup

/-- One direction `ni` of the boundary-hex branch of `vertex_test` (source
part 1, lines 169-207): if the neighbour at `ni` exists with a different
identity, then if direction `(ni+1)%6` has no neighbour a vertex is created
at corner `ni` with pair `(-1, f(nb ni))`, else if direction `ni-1` has no
neighbour a vertex is created at corner `ni-1` with pair `(f(nb ni), -1)`;
both get `onBoundary := true`. -/
def vtxBoundaryAt (hg : HexGrid) (f : List ℚ) (h : Hex) (ni : Nat) :
    List DirichVtx :=
  match h.nb ni with
  | some n =>
    if fAt f (hexAt hg n).vi ≠ fAt f h.vi then
      if (h.nb ((ni + 1) % 6)).isNone then
        [{ DirichVtx.mk' (h.vertexCoord ni) hg.d (fAt f h.vi)
             (-1, fAt f (hexAt hg n).vi) h.vi with onBoundary := true }]
      else
        if (h.nb (if ni > 0 then ni - 1 else 5)).isNone then
          [{ DirichVtx.mk' (h.vertexCoord (if ni > 0 then ni - 1 else 5)) hg.d
               (fAt f h.vi) (fAt f (hexAt hg n).vi, -1) h.vi with onBoundary := true }]
        else []
    else []
  | none => []

/-- The boundary-hex branch of `vertex_test` (source part 1): the for loop
over the six directions, appending the vertices found. -/
def vtxBoundary (hg : HexGrid) (f : List ℚ) (h : Hex) : List DirichVtx :=
  (List.range 6).foldl (fun acc ni => acc ++ vtxBoundaryAt hg f h ni) []

/-- One direction `ni` of the interior triple-point branch of `vertex_test`
(source part 2, lines 213-239): if the neighbour at `ni` exists with a
different identity and the neighbour at `(ni+1)%6` exists with an identity
different from both, a vertex is created at corner `ni` with pair
`(f(nb (ni+1)), f(nb ni))` — with the constructor defaults, so `onBoundary`
stays false. -/
def vtxInteriorAt (hg : HexGrid) (f : List ℚ) (h : Hex) (ni : Nat) :
    List DirichVtx :=
  match h.nb ni with
  | some n =>
    if fAt f (hexAt hg n).vi ≠ fAt f h.vi then
      match h.nb ((ni + 1) % 6) with
      | some n2 =>
        if fAt f (hexAt hg n2).vi ≠ fAt f h.vi ∧
           fAt f (hexAt hg n2).vi ≠ fAt f (hexAt hg n).vi then
          [DirichVtx.mk' (h.vertexCoord ni) hg.d (fAt f h.vi)
             (fAt f (hexAt hg n2).vi, fAt f (hexAt hg n).vi) h.vi]
        else []
      | none => []
    else []
  | none => []

/-- The interior triple-point branch of `vertex_test` (source part 2, run for
every hex that passed the `n_ids` test, boundary hexes included). -/
def vtxInterior (hg : HexGrid) (f : List ℚ) (h : Hex) : List DirichVtx :=
  (List.range 6).foldl (fun acc ni => acc ++ vtxInteriorAt hg f h ni) []

/-- `ShapeAnalysis::vertex_test`: the candidates appended for one hex (the
source appends them to a shared list; here they are returned). -/
def vertex_test (hg : HexGrid) (f : List ℚ) (h : Hex) : List DirichVtx :=
  if (h.boundaryHex = true ∧ 2 ≤ (nIds hg f h).length) ∨
     (h.boundaryHex = false ∧ 3 ≤ (nIds hg f h).length) then
    (if h.boundaryHex then vtxBoundary hg f h else []) ++ vtxInterior hg f h
  else []

/-! ### Edge walking (`walk_common`, ShapeAnalysis.h lines 279-640)

The `while (!partner_found)` loop is embedded as `walkLoop` iterating
`walkIteration` with explicit fuel.  The thrown `runtime_error`s of the
source become the error values `WErr.noSecondHex` (line 503) and
`WErr.wrongDirection` (line 544).  `WErr.noInitialDirn` models the
behaviour when no corner of the current hex matches `v_init` (the source
then uses the sentinel `INT_MAX` direction, which cannot reach a valid
neighbour); `WErr.unknownRotn` models the unreachable `Rotn::Unknown`
fallthrough.  `WErr.walkFuelOut` and `WErr.pdFuelOut` are artifacts of the
fuel embedding of the two unbounded recursions. -/

/-- Rotational direction, as in the source. -/
inductive Rotn where
  | Unknown : Rotn
  | Clock : Rotn
  | Anticlock : Rotn
deriving DecidableEq, Repr

/-- Error outcomes of the embedded walk and closure code. -/
inductive WErr where
  | noInitialDirn : WErr
  | noSecondHex : WErr
  | unknownRotn : WErr
  | wrongDirection : WErr
  | walkFuelOut : WErr
  | pdFuelOut : WErr
deriving DecidableEq, Repr

/-- The mutable variables of `walk_common` that persist across iterations of
the `while (!partner_found)` loop. -/
structure WalkState where
  hexit_first : Nat
  hexit : Nat
  hexit_neighb : Nat
  hexit_last : Nat
  v_init : ℚ × ℚ
  path : List (ℚ × ℚ)
  nnd : ℚ
  nnc : ℚ × ℚ
deriving DecidableEq, Repr

/-- What `walk_common` hands back: the returned coordinate `next_one`, the
final contents of the caller's path buffer, and the final values of the
in-out parameters `next_neighb_dom` and `next_neighb_coord`. -/
structure WalkResult where
  ret : ℚ × ℚ
  path : List (ℚ × ℚ)
  nnd : ℚ
  nnc : ℚ × ℚ
deriving DecidableEq, Repr

/-- The fixed direction scan order `i = 0..5`. -/
def dirList : List Nat := [0, 1, 2, 3, 4, 5]

/-- Lines 352-425: scan corners `i` of `hexit_first` for the one matching
`v_init`; on a match, try the neighbour at `(i+1)%6` and then at `i-1` for
identity `edgedoms.first`, with the source's exact break/fall-through and
`hexit` reassignments; when neither flank exists the edge has only two
vertices and direction `i-1` is taken.  Returns the final `hexit` and the
found direction (`none` embeds the no-matching-corner fallthrough, where the
source would go on with the `INT_MAX` sentinel). -/
def findInitialDirn (hg : HexGrid) (f : List ℚ) (first : ℚ) (hexitFirst : Nat)
    (vinit : ℚ × ℚ) : List Nat → Nat → Nat × Option Nat
  | [], hexit => (hexit, none)
  | i :: rest, hexit =>
    if (hexAt hg hexitFirst).compareVertexCoord i vinit then
      match (hexAt hg hexitFirst).nb ((i + 1) % 6) with
      | some n1 =>
        if fAt f (hexAt hg n1).vi = first then (n1, some ((i + 1) % 6))
        else
          match (hexAt hg hexitFirst).nb (if i > 0 then i - 1 else 5) with
          | some n2 =>
            if fAt f (hexAt hg n2).vi = first then (n2, some (if i > 0 then i - 1 else 5))
            else findInitialDirn hg f first hexitFirst vinit rest n2
          | none => (n1, some (if i > 0 then i - 1 else 5))
      | none =>
        match (hexAt hg hexitFirst).nb (if i > 0 then i - 1 else 5) with
        | some n2 =>
          if fAt f (hexAt hg n2).vi = first then (n2, some (if i > 0 then i - 1 else 5))
          else findInitialDirn hg f first hexitFirst vinit rest n2
        | none => (hexit, some (if i > 0 then i - 1 else 5))
    else findInitialDirn hg f first hexitFirst vinit rest hexit

/-- One candidate step of the B-side search (lines 437-469 resp. 471-501):
the neighbour of `hexit_first` at direction `j` is accepted when it exists,
carries `edgedoms.second`, and — when a `next_neighb_coord` is recorded —
sits at that coordinate. -/
def trySecond (hg : HexGrid) (f : List ℚ) (second : ℚ) (nnc : ℚ × ℚ)
    (hexitFirst j : Nat) : Option (Nat × Nat) :=
  match (hexAt hg hexitFirst).nb j with
  | some hn =>
    if fAt f (hexAt hg hn).vi = second then
      if nnc.1 ≠ Fmax ∧ nnc.2 ≠ Fmax then
        if (hexAt hg hn).compareCoord nnc then some (hn, j) else none
      else some (hn, j)
    else none
  | none => none

/-- Lines 433-501: locate the B-side hex flanking the seed corner, first at
direction `hexit_first_dirn + 1`, then at `hexit_first_dirn - 1`;
`none` corresponds to the `runtime_error` throw at line 503. -/
def findSecond (hg : HexGrid) (f : List ℚ) (second : ℚ) (nnc : ℚ × ℚ)
    (hexitFirst dirn : Nat) : Option (Nat × Nat) :=
  match trySecond hg f second nnc hexitFirst ((dirn + 1) % 6) with
  | some r => some r
  | none => trySecond hg f second nnc hexitFirst (if dirn > 0 then dirn - 1 else 5)

/-- Lines 511-535: the rotation sense derived from which flank held the
B-side hex. -/
def rotnOf (dirn sdirn : Nat) : Rotn :=
  if sdirn = (if dirn > 0 then dirn - 1 else 5) then Rotn.Anticlock
  else if sdirn = (dirn + 1) % 6 then Rotn.Clock
  else Rotn.Unknown

/-- Lines 511-535: the direction from `hexit` to `hexit_neighb`
(`hex_hex_neighb_dirn`); `none` in the unreachable `Rotn::Unknown` case. -/
def hexHexNeighbDirn (dirn sdirn : Nat) : Option Nat :=
  if sdirn = (if dirn > 0 then dirn - 1 else 5) then
    some ((((dirn + 3) % 6) + 1) % 6)
  else if sdirn = (dirn + 1) % 6 then
    some (if (dirn + 3) % 6 > 0 then (dirn + 3) % 6 - 1 else 5)
  else none

/-- The rotation update of the inner for loop:
anticlockwise `j := (j+1)%6`, clockwise `j := j>0 ? j-1 : 5` (line 563). -/
def rotStep (rot : Rotn) (j : Nat) : Nat :=
  if rot = Rotn.Anticlock then (j + 1) % 6 else if j > 0 then j - 1 else 5

/-- The five values taken by `j` in the inner for loop, which starts at
`hex_hex_neighb_dirn` and stops on reaching `last_j` (one step short of a
full turn, lines 552-563). -/
def jSeq (rot : Rotn) (hhnd : Nat) : List Nat :=
  [hhnd, rotStep rot hhnd, rotStep rot (rotStep rot hhnd),
   rotStep rot (rotStep rot (rotStep rot hhnd)),
   rotStep rot (rotStep rot (rotStep rot (rotStep rot hhnd)))]

/-- Lines 561-635, the inner for loop rotating around the current A-side hex
`hexit`: direction without neighbour ends the edge at the grid boundary
(`next_neighb_dom := -1`); a B-labelled neighbour records the shared corner
and continues; an A-labelled neighbour pivots (new A-side hex, B-side
reference from `hexit_last`) and returns to the outer loop (`Sum.inl`); any
third identity ends the edge and records the new neighbour domain and its
location (`Sum.inr` carries `next_one` and the final state). -/
def rotLoop (hg : HexGrid) (f : List ℚ) (edgedoms : ℚ × ℚ) (hexitIdx : Nat) :
    List Nat → WalkState → WalkState ⊕ ((ℚ × ℚ) × WalkState)
  | [], st => Sum.inl st
  | j :: rest, st =>
    let corner := (hexAt hg hexitIdx).vertexCoord (if j > 0 then j - 1 else 5)
    match (hexAt hg hexitIdx).nb j with
    | none =>
      Sum.inr (corner,
        { st with v_init := corner, path := st.path ++ [corner],
                  nnd := -1, nnc := (Fmax, Fmax) })
    | some n =>
      if fAt f (hexAt hg n).vi = edgedoms.2 then
        rotLoop hg f edgedoms hexitIdx rest
          { st with v_init := corner, path := st.path ++ [corner], hexit_last := n }
      else if fAt f (hexAt hg n).vi = edgedoms.1 then
        Sum.inl { st with v_init := corner, hexit_first := hexitIdx,
                          hexit := n, hexit_neighb := st.hexit_last }
      else
        Sum.inr (corner,
          { st with v_init := corner, path := st.path ++ [corner],
                    nnd := fAt f (hexAt hg n).vi,
                    nnc := ((hexAt hg n).x, (hexAt hg n).y) })

/-- One iteration of the `while (!partner_found)` loop of `walk_common`:
find the initial edge direction, locate the B-side hex (throwing
`noSecondHex` when it cannot be found), derive the rotation sense, check the
adjacency invariant (throwing `wrongDirection` when `hexit_neighb` is not
the neighbour of `hexit` in the derived direction), then rotate around the
A-side hex. -/
def walkIteration (hg : HexGrid) (f : List ℚ) (edgedoms : ℚ × ℚ)
    (st : WalkState) : Except WErr (WalkState ⊕ ((ℚ × ℚ) × WalkState)) :=
  match findInitialDirn hg f edgedoms.1 st.hexit_first st.v_init dirList st.hexit with
  | (_, none) => Except.error WErr.noInitialDirn
  | (hexit1, some dirn) =>
    match findSecond hg f edgedoms.2 st.nnc st.hexit_first dirn with
    | none => Except.error WErr.noSecondHex
    | some (hn, sdirn) =>
      match hexHexNeighbDirn dirn sdirn with
      | none => Except.error WErr.unknownRotn
      | some hhnd =>
        if (hexAt hg hexit1).nb hhnd ≠ some hn then
          Except.error WErr.wrongDirection
        else
          Except.ok (rotLoop hg f edgedoms hexit1 (jSeq (rotnOf dirn sdirn) hhnd)
            { st with hexit := hexit1, hexit_neighb := hn, hexit_last := hn })

/-- The `while (!partner_found)` loop, with fuel. -/
def walkLoop (hg : HexGrid) (f : List ℚ) (edgedoms : ℚ × ℚ) :
    Nat → WalkState → Except WErr WalkResult
  | 0, _ => Except.error WErr.walkFuelOut
  | fuel + 1, st =>
    match walkIteration hg f edgedoms st with
    | Except.error e => Except.error e
    | Except.ok (Sum.inl st') => walkLoop hg f edgedoms fuel st'
    | Except.ok (Sum.inr (nextOne, st')) =>
      Except.ok ⟨nextOne, st'.path, st'.nnd, st'.nnc⟩

/-- Unfolding equation of `walkLoop` at zero fuel. -/
theorem walkLoop_zero (hg : HexGrid) (f : List ℚ) (edgedoms : ℚ × ℚ)
    (st : WalkState) :
    walkLoop hg f edgedoms 0 st = Except.error WErr.walkFuelOut := rfl

/-- Unfolding equation of `walkLoop` at positive fuel. -/
theorem walkLoop_succ (hg : HexGrid) (f : List ℚ) (edgedoms : ℚ × ℚ)
    (wfuel : Nat) (st : WalkState) :
    walkLoop hg f edgedoms (wfuel + 1) st =
      (match walkIteration hg f edgedoms st with
       | Except.error e => Except.error e
       | Except.ok (Sum.inl st2) => walkLoop hg f edgedoms wfuel st2
       | Except.ok (Sum.inr (nextOne, st2)) =>
         Except.ok ⟨nextOne, st2.path, st2.nnd, st2.nnc⟩) := rfl

/-- Lines 321-345: when the seed hex `v.hi` itself carries
`edgedoms.first`, find the first neighbour whose centre lies at the
long-radius distance from `v.v` (within the fixed `0.001` tolerance, here the
equivalent squared comparison) and which carries neither edge identity; that
neighbour becomes `hexit_first`.  Returns the resulting `hexit_first`. -/
def seedSwap (hg : HexGrid) (f : List ℚ) (v : DirichVtx) (edgedoms : ℚ × ℚ) : Nat :=
  if fAt f (hexAt hg v.hi).vi = edgedoms.1 then
    match (List.range 6).findSome? (fun i =>
      match (hexAt hg v.hi).nb i with
      | some n =>
        let dx := (hexAt hg n).x - v.v.1
        let dy := (hexAt hg n).y - v.v.2
        if 0 ≤ (hexAt hg v.hi).lr + 1 / 1000 ∧
           dx ^ 2 + dy ^ 2 < ((hexAt hg v.hi).lr + 1 / 1000) ^ 2 then
          if fAt f (hexAt hg n).vi ≠ edgedoms.2 ∧ fAt f (hexAt hg n).vi ≠ edgedoms.1 then
            some n
          else none
        else none
      | none => none) with
    | some n => n
    | none => v.hi
  else v.hi

/-- The state of `walk_common` on entry to the main loop: all hex iterators
point at `v.hi` except that `hexit_first` may have been moved by the seed
swap; `v_init := v.v`; the caller's path buffer and the in-out parameters
`next_neighb_dom`/`next_neighb_coord` hold their incoming values. -/
def initWalkState (hg : HexGrid) (f : List ℚ) (v : DirichVtx)
    (path0 : List (ℚ × ℚ)) (edgedoms : ℚ × ℚ) (nnd0 : ℚ) (nnc0 : ℚ × ℚ) :
    WalkState :=
  { hexit_first := seedSwap hg f v edgedoms, hexit := v.hi, hexit_neighb := v.hi,
    hexit_last := v.hi, v_init := v.v, path := path0, nnd := nnd0, nnc := nnc0 }

/-- `ShapeAnalysis::walk_common`. -/
def walk_common (hg : HexGrid) (f : List ℚ) (v : DirichVtx)
    (path0 : List (ℚ × ℚ)) (edgedoms : ℚ × ℚ) (nnd0 : ℚ) (nnc0 : ℚ × ℚ)
    (wfuel : Nat) : Except WErr WalkResult :=
  walkLoop hg f edgedoms wfuel (initWalkState hg f v path0 edgedoms nnd0 nnc0)

/-- `ShapeAnalysis::walk_to_next` (lines 655-671): walk the edge between
`v.f` and `v.neighb.first`, into `v.pathto_next`; the caller
(`process_domain`) resets `next_neighb_dom` to the sentinel before the
call. -/
def walk_to_next (hg : HexGrid) (f : List ℚ) (v : DirichVtx) (wfuel : Nat)
    (nnc0 : ℚ × ℚ) : Except WErr WalkResult :=
  walk_common hg f v v.pathto_next (v.f, v.neighb.1) Fmax nnc0 wfuel

/-- `ShapeAnalysis::walk_to_neighbour` (lines 686-703): when either entry of
`v.neighb` is the boundary sentinel `-1`, return `(0,0)` at once without
walking; otherwise walk the edge between `v.neighb.first` and
`v.neighb.second` into `v.pathto_neighbour`.  The quadruple returned is
(returned coordinate, final `pathto_neighbour` contents, final
`next_neighb_dom`, final `next_neighb_coord`). -/
def walk_to_neighbour (hg : HexGrid) (f : List ℚ) (v : DirichVtx)
    (nnd0 : ℚ) (nnc0 : ℚ × ℚ) (wfuel : Nat) :
    Except WErr ((ℚ × ℚ) × List (ℚ × ℚ) × ℚ × (ℚ × ℚ)) :=
  if v.neighb.1 = -1 ∨ v.neighb.2 = -1 then
    Except.ok ((0, 0), v.pathto_neighbour, nnd0, nnc0)
  else
    (walk_common hg f v v.pathto_neighbour v.neighb nnd0 nnc0 wfuel).map
      (fun w => (w.ret, w.path, w.nnd, w.nnc))

/-! ### Domain closure (`process_domain`, ShapeAnalysis.h lines 713-815) -/

/-- The mutable data threaded through `process_domain`: the shared candidate
list, the in-progress domain, and the in-out `next_neighb_coord`. -/
structure PDState where
  vertices : List DirichVtx
  domain : List DirichVtx
  nnc : ℚ × ℚ
deriving DecidableEq, Repr

/-- The match condition of the candidate search (lines 766-776): an unclosed
vertex at the walked-to coordinate whose domain identity equals `v.f`, whose
`neighb.second` equals `v.neighb.first`, and whose `neighb.first` equals the
newly discovered `next_neighb_dom`. -/
def pdMatch (vf vnb1 nnd : ℚ) (coord : ℚ × ℚ) (w : DirichVtx) : Bool :=
  !w.closed && w.compare coord && decide (w.f = vf) &&
    decide (w.neighb.2 = vnb1) && decide (w.neighb.1 = nnd)

/-- `ShapeAnalysis::process_domain`, with explicit fuel for the recursion
(`.error .pdFuelOut` when it runs out) and explicit state.  `dvIdx` embeds
the iterator `dv` into the candidate list; `firstVtx` is the by-value
`first_vtx` parameter.  Returns the source's boolean together with the final
state. -/
def process_domain (hg : HexGrid) (f : List ℚ) (wfuel : Nat) :
    Nat → Nat → DirichVtx → PDState → Except WErr (Bool × PDState)
  | 0, _, _, _ => Except.error WErr.pdFuelOut
  | fuel + 1, dvIdx, firstVtx, s =>
    let v := s.vertices.getD dvIdx default
    let fv := if firstVtx.unset then v else firstVtx
    match walk_to_next hg f v wfuel s.nnc with
    | Except.error e => Except.error e
    | Except.ok w =>
      let verts1 := s.vertices.set dvIdx { v with closed := true }
      let dom1 := s.domain ++ [{ v with pathto_next := w.path }]
      if fv.compare w.ret then Except.ok (true, ⟨verts1, dom1, w.nnc⟩)
      else
        match verts1.findIdx? (pdMatch v.f v.neighb.1 w.nnd w.ret) with
        | none => Except.ok (false, ⟨verts1, dom1, w.nnc⟩)
        | some k =>
          if (verts1.getD k default).onBoundary = false then
            process_domain hg f wfuel fuel k fv ⟨verts1, dom1, w.nnc⟩
          else Except.ok (false, ⟨verts1, dom1, w.nnc⟩)

/-! ### Orchestration (`dirichlet_vertices`, ShapeAnalysis.h lines 822-865) -/

/-- Step 1 of `dirichlet_vertices`: run `vertex_test` on every hex, appending
candidates to the caller-supplied list. -/
def dvStep1 (hg : HexGrid) (f : List ℚ) (vertices0 : List DirichVtx) :
    List DirichVtx :=
  hg.hexen.foldl (fun vs h => vs ++ vertex_test hg f h) vertices0

/-- Step 2 of `dirichlet_vertices` (lines 842-861): the
`while (dv != vertices.end() && domcount++ < 3)` loop.  `rem` is the number
of candidates from `dvIdx` to the end of the list, `domcount` the iteration
counter; a candidate owned by a boundary hex is marked closed and skipped,
any other is submitted to `process_domain` with a fresh default `first_vtx`
and `next_neighb_coord = (max, max)`; a successful closure's domain is
collected.  Returns the domain collection and the final candidate list. -/
def dvLoop (hg : HexGrid) (f : List ℚ) (wfuel pfuel : Nat) :
    Nat → Nat → Nat → List DirichVtx → List (List DirichVtx) →
    Except WErr (List (List DirichVtx) × List DirichVtx)
  | 0, _, _, verts, doms => Except.ok (doms, verts)
  | rem + 1, dvIdx, domcount, verts, doms =>
    if domcount < 3 then
      if (hexAt hg (verts.getD dvIdx default).hi).boundaryHex then
        dvLoop hg f wfuel pfuel rem (dvIdx + 1) (domcount + 1)
          (verts.set dvIdx { verts.getD dvIdx default with closed := true }) doms
      else
        match process_domain hg f wfuel pfuel dvIdx default ⟨verts, [], (Fmax, Fmax)⟩ with
        | Except.error e => Except.error e
        | Except.ok (succ, st) =>
          dvLoop hg f wfuel pfuel rem (dvIdx + 1) (domcount + 1) st.vertices
            (if succ then doms ++ [st.domain] else doms)
    else Except.ok (doms, verts)

/-- `ShapeAnalysis::dirichlet_vertices`: populate the candidate list by
scanning every hex, then run the closure loop.  Returns the collected
domains together with the final candidate list (mutated in place in the
source). -/
def dirichlet_vertices (hg : HexGrid) (f : List ℚ) (vertices0 : List DirichVtx)
    (wfuel pfuel : Nat) : Except WErr (List (List DirichVtx) × List DirichVtx) :=
  let vs := dvStep1 hg f vertices0
  dvLoop hg f wfuel pfuel vs.length 0 0 vs []

/-- Instrumented shadow of `dvLoop`: identical control flow, additionally
recording the owning hex of every candidate actually submitted to
`process_domain` (the trace survives an error abort). -/
def dvLoopT (hg : HexGrid) (f : List ℚ) (wfuel pfuel : Nat) :
    Nat → Nat → Nat → List DirichVtx → List (List DirichVtx) →
    Except WErr (List (List DirichVtx) × List DirichVtx) × List Hex
  | 0, _, _, verts, doms => (Except.ok (doms, verts), [])
  | rem + 1, dvIdx, domcount, verts, doms =>
    if domcount < 3 then
      if (hexAt hg (verts.getD dvIdx default).hi).boundaryHex then
        dvLoopT hg f wfuel pfuel rem (dvIdx + 1) (domcount + 1)
          (verts.set dvIdx { verts.getD dvIdx default with closed := true }) doms
      else
        match process_domain hg f wfuel pfuel dvIdx default ⟨verts, [], (Fmax, Fmax)⟩ with
        | Except.error e => (Except.error e, [hexAt hg (verts.getD dvIdx default).hi])
        | Except.ok (succ, st) =>
          ((dvLoopT hg f wfuel pfuel rem (dvIdx + 1) (domcount + 1) st.vertices
              (if succ then doms ++ [st.domain] else doms)).1,
            hexAt hg (verts.getD dvIdx default).hi ::
              (dvLoopT hg f wfuel pfuel rem (dvIdx + 1) (domcount + 1) st.vertices
                (if succ then doms ++ [st.domain] else doms)).2)
    else (Except.ok (doms, verts), [])

/-! ### Generic list helpers -/

/-- `getD` after `set` at a different position is unchanged. -/
theorem getD_set_ne {α : Type} (l : List α) (n k : Nat) (a d : α)
    (h : n ≠ k) : (l.set n a).getD k d = l.getD k d := by
  simp [List.getD_eq_getElem?_getD, List.getElem?_set_ne h]

/-- `getD` after `set` at the same, in-range position yields the new value. -/
theorem getD_set_eq {α : Type} (l : List α) (n : Nat) (a d : α)
    (h : n < l.length) : (l.set n a).getD n d = a := by
  simp [List.getD_eq_getElem?_getD, List.getElem?_set_self, h]

/-- Specification of `List.findIdx?`: a found index is in range, its element
satisfies the predicate, and all earlier elements do not. -/
theorem findIdx?_spec {α : Type} [Inhabited α] (p : α → Bool) :
    ∀ (l : List α) (k : Nat), l.findIdx? p = some k →
      k < l.length ∧ p (l.getD k default) = true := by
  intro l
  induction l with
  | nil => intro k hk; simp [List.findIdx?] at hk
  | cons a t ih =>
    intro k hk
    rw [List.findIdx?_cons] at hk
    by_cases hpa : p a
    · simp [hpa] at hk
      subst hk
      simpa using hpa
    · simp [hpa] at hk
      match k, hk with
      | k + 1, hk =>
        have := ih k (by simpa using hk)
        simpa using this

/-- Specification of `List.findIdx?` returning `none`: no element satisfies
the predicate. -/
theorem findIdx?_none {α : Type} [Inhabited α] (p : α → Bool) :
    ∀ (l : List α), (∀ k, k < l.length → p (l.getD k default) = false) →
      l.findIdx? p = none := by
  intro l hall
  rcases hfind : l.findIdx? p with _ | k
  · rfl
  · have h1 := findIdx?_spec p l k hfind
    have h2 := h1.2
    rw [hall k h1.1] at h2
    exact Bool.noConfusion h2

/-! ### Claims C2 and C3: contour extraction -/

/-- The one-direction neighbour test as a proposition. -/
theorem gcNbBelow_iff (hg : HexGrid) (f : List (List ℚ)) (θ : ℚ) (i : Nat)
    (h : Hex) (k : Nat) :
    gcNbBelow hg f θ i h k = true ↔
      ∃ n, h.nb k = some n ∧ gcNorm hg f i (hexAt hg n).vi < θ := by
  unfold gcNbBelow
  cases hnb : h.nb k <;> simp [hnb]

/-- Claim C2 (amended, membership characterisation): a cell is in the contour
collection for field `i` iff it belongs to the grid, its normalised value
exceeds the threshold, and it is a boundary cell or has an existing
neighbour whose normalised value is strictly BELOW the threshold (the
source compares with `<`, not `≤`, at ShapeAnalysis.h lines 91-96). -/
theorem C2_contour_membership (hg : HexGrid) (f : List (List ℚ)) (θ : ℚ)
    (i : Nat) (h : Hex) (hi : i < f.length) :
    h ∈ (get_contours hg f θ).getD i [] ↔
      h ∈ hg.hexen ∧ gcNorm hg f i h.vi > θ ∧
        (h.onBoundary = true ∨
          ∃ k, k < 6 ∧ ∃ n, h.nb k = some n ∧ gcNorm hg f i (hexAt hg n).vi < θ) := by
  have hrow : (get_contours hg f θ).getD i [] = hg.hexen.filter (gcMember hg f θ i) := by
    unfold get_contours
    rw [List.getD_eq_getElem?_getD, List.getElem?_map, List.getElem?_range hi]
    rfl
  rw [hrow, List.mem_filter]
  constructor
  · rintro ⟨hmem, hmemb⟩
    refine ⟨hmem, ?_⟩
    unfold gcMember at hmemb
    by_cases hb : h.onBoundary = false
    · rw [if_pos hb] at hmemb
      have h1 := (Bool.and_eq_true _ _).mp hmemb
      refine ⟨by simpa using h1.1, Or.inr ?_⟩
      have h2 := h1.2
      rcases Bool.or_eq_true_iff.mp h2 with h3 | h5
      rcases Bool.or_eq_true_iff.mp h3 with h3 | h4
      rcases Bool.or_eq_true_iff.mp h3 with h3 | h4'
      rcases Bool.or_eq_true_iff.mp h3 with h3 | h4''
      rcases Bool.or_eq_true_iff.mp h3 with h3 | h4'''
      · exact ⟨0, by omega, (gcNbBelow_iff hg f θ i h 0).mp h3⟩
      · exact ⟨1, by omega, (gcNbBelow_iff hg f θ i h 1).mp h4'''⟩
      · exact ⟨2, by omega, (gcNbBelow_iff hg f θ i h 2).mp h4''⟩
      · exact ⟨3, by omega, (gcNbBelow_iff hg f θ i h 3).mp h4'⟩
      · exact ⟨4, by omega, (gcNbBelow_iff hg f θ i h 4).mp h4⟩
      · exact ⟨5, by omega, (gcNbBelow_iff hg f θ i h 5).mp h5⟩
    · rw [if_neg hb] at hmemb
      exact ⟨by simpa using hmemb, Or.inl (by revert hb; cases h.onBoundary <;> simp)⟩
  · rintro ⟨hmem, hgt, hside⟩
    refine ⟨hmem, ?_⟩
    unfold gcMember
    by_cases hb : h.onBoundary = false
    · rw [if_pos hb]
      rcases hside with hbdy | ⟨k, hk6, hw⟩
      · rw [hb] at hbdy; cases hbdy
      · refine (Bool.and_eq_true _ _).mpr ⟨by simpa using hgt, ?_⟩
        have : gcNbBelow hg f θ i h k = true := (gcNbBelow_iff hg f θ i h k).mpr hw
        interval_cases k <;> simp [this]
    · rw [if_neg hb]
      simpa using hgt

/-- The valid field-value pool of the source's min/max pass: every field's
value at every NON-boundary cell, in scan order. -/
def gcVals (hg : HexGrid) (f : List (List ℚ)) : List ℚ :=
  hg.hexen.foldl
    (fun acc h =>
      if h.onBoundary = false then
        acc ++ (List.range f.length).map (fun i => fAt2 f i h.vi)
      else acc)
    []

/-- One max/min update step. -/
def mmStep (mm : ℚ × ℚ) (v : ℚ) : ℚ × ℚ :=
  (if v > mm.1 then v else mm.1, if v < mm.2 then v else mm.2)

theorem gcVals_acc (f : List (List ℚ)) :
    ∀ (l : List Hex) (acc : List ℚ),
      l.foldl
        (fun acc h =>
          if h.onBoundary = false then
            acc ++ (List.range f.length).map (fun i => fAt2 f i h.vi)
          else acc) acc
      = acc ++ l.foldl
          (fun acc h =>
            if h.onBoundary = false then
              acc ++ (List.range f.length).map (fun i => fAt2 f i h.vi)
            else acc) [] := by
  intro l
  induction l with
  | nil => simp
  | cons h t ih =>
    intro acc
    simp only [List.foldl_cons]
    by_cases hb : h.onBoundary = false
    · rw [if_pos hb, if_pos hb, List.nil_append, ih,
        ih ((List.range f.length).map (fun i => fAt2 f i h.vi)), List.append_assoc]
    · rw [if_neg hb, if_neg hb]
      exact ih acc

theorem mm_fold_general (f : List (List ℚ)) :
    ∀ (l : List Hex) (mm : ℚ × ℚ),
      l.foldl
        (fun mm h =>
          if h.onBoundary = false then
            (List.range f.length).foldl
              (fun mm2 i =>
                let mx := if fAt2 f i h.vi > mm2.1 then fAt2 f i h.vi else mm2.1
                let mn := if fAt2 f i h.vi < mm2.2 then fAt2 f i h.vi else mm2.2
                (mx, mn))
              mm
          else mm) mm
      = (l.foldl
          (fun acc h =>
            if h.onBoundary = false then
              acc ++ (List.range f.length).map (fun i => fAt2 f i h.vi)
            else acc) []).foldl mmStep mm := by
  intro l
  induction l with
  | nil => simp
  | cons h t ih =>
    intro mm
    simp only [List.foldl_cons]
    by_cases hb : h.onBoundary = false
    · rw [if_pos hb, if_pos hb, List.nil_append,
        gcVals_acc f t ((List.range f.length).map (fun i => fAt2 f i h.vi)),
        List.foldl_append, List.foldl_map, ih]
      rfl
    · rw [if_neg hb, if_neg hb, ih]


theorem mmFold_fst : ∀ (vals : List ℚ) (a b : ℚ),
    (vals.foldl mmStep (a, b)).1 = vals.foldl (fun x v => if v > x then v else x) a := by
  intro vals
  induction vals with
  | nil => intro a b; rfl
  | cons v t ih => intro a b; simpa [mmStep] using ih _ _

theorem mmFold_snd : ∀ (vals : List ℚ) (a b : ℚ),
    (vals.foldl mmStep (a, b)).2 = vals.foldl (fun x v => if v < x then v else x) b := by
  intro vals
  induction vals with
  | nil => intro a b; rfl
  | cons v t ih => intro a b; simpa [mmStep] using ih _ _

theorem foldMax_spec : ∀ (vals : List ℚ) (a : ℚ),
    (vals.foldl (fun x v => if v > x then v else x) a = a ∨
      vals.foldl (fun x v => if v > x then v else x) a ∈ vals) ∧
    a ≤ vals.foldl (fun x v => if v > x then v else x) a ∧
    ∀ v ∈ vals, v ≤ vals.foldl (fun x v => if v > x then v else x) a := by
  intro vals
  induction vals with
  | nil => intro a; simp
  | cons w t ih =>
    intro a
    simp only [List.foldl_cons]
    obtain ⟨ih1, ih2, ih3⟩ := ih (if w > a then w else a)
    refine ⟨?_, ?_, ?_⟩
    · rcases ih1 with h | h
      · by_cases hw : w > a
        · exact Or.inr (by rw [h, if_pos hw]; exact List.mem_cons_self _ _)
        · exact Or.inl (by rw [h, if_neg hw])
      · exact Or.inr (List.mem_cons_of_mem _ h)
    · exact le_trans (by by_cases hw : w > a <;> simp [hw] <;> linarith) ih2
    · intro v hv
      rcases List.mem_cons.mp hv with rfl | hv
      · exact le_trans (by by_cases hw : v > a <;> simp [hw] <;> linarith) ih2
      · exact ih3 v hv

theorem foldMin_spec : ∀ (vals : List ℚ) (b : ℚ),
    (vals.foldl (fun x v => if v < x then v else x) b = b ∨
      vals.foldl (fun x v => if v < x then v else x) b ∈ vals) ∧
    vals.foldl (fun x v => if v < x then v else x) b ≤ b ∧
    ∀ v ∈ vals, vals.foldl (fun x v => if v < x then v else x) b ≤ v := by
  intro vals
  induction vals with
  | nil => intro b; simp
  | cons w t ih =>
    intro b
    simp only [List.foldl_cons]
    obtain ⟨ih1, ih2, ih3⟩ := ih (if w < b then w else b)
    refine ⟨?_, ?_, ?_⟩
    · rcases ih1 with h | h
      · by_cases hw : w < b
        · exact Or.inr (by rw [h, if_pos hw]; exact List.mem_cons_self _ _)
        · exact Or.inl (by rw [h, if_neg hw])
      · exact Or.inr (List.mem_cons_of_mem _ h)
    · exact le_trans ih2 (by by_cases hw : w < b <;> simp [hw] <;> linarith)
    · intro v hv
      rcases List.mem_cons.mp hv with rfl | hv
      · exact le_trans ih2 (by by_cases hw : v < b <;> simp [hw] <;> linarith)
      · exact ih3 v hv

/-- Claim C3 (amended): `get_contours` normalises all fields jointly, but the
shared minimum and maximum are taken only over the NON-boundary cells of the
grid (the min/max pass at ShapeAnalysis.h lines 63-70 skips
`h.onBoundary() == true`); under the stated bounds the `±1e7` fold seeds do
not interfere, and every normalised value is
`(f[i][k] - min) / (max - min)` for that restricted min/max. -/
theorem C3_joint_normalisation (hg : HexGrid) (f : List (List ℚ))
    (hne : gcVals hg f ≠ [])
    (hbd : ∀ v ∈ gcVals hg f, -(10 ^ 7 : ℚ) ≤ v ∧ v ≤ (10 ^ 7 : ℚ)) :
    ((gcMinMax hg f).1 ∈ gcVals hg f ∧ ∀ v ∈ gcVals hg f, v ≤ (gcMinMax hg f).1) ∧
    ((gcMinMax hg f).2 ∈ gcVals hg f ∧ ∀ v ∈ gcVals hg f, (gcMinMax hg f).2 ≤ v) ∧
    ∀ i k, gcNorm hg f i k =
      (fAt2 f i k - (gcMinMax hg f).2) / ((gcMinMax hg f).1 - (gcMinMax hg f).2) := by
  obtain ⟨v0, hv0⟩ := List.exists_mem_of_ne_nil _ hne
  have hfst := mmFold_fst (gcVals hg f) (-(10 ^ 7 : ℚ)) (10 ^ 7 : ℚ)
  have hsnd := mmFold_snd (gcVals hg f) (-(10 ^ 7 : ℚ)) (10 ^ 7 : ℚ)
  have heq : gcMinMax hg f = (gcVals hg f).foldl mmStep (-(10 ^ 7 : ℚ), (10 ^ 7 : ℚ)) :=
    mm_fold_general f hg.hexen _
  obtain ⟨hmax1, _, hmax3⟩ := foldMax_spec (gcVals hg f) (-(10 ^ 7 : ℚ))
  obtain ⟨hmin1, _, hmin3⟩ := foldMin_spec (gcVals hg f) (10 ^ 7 : ℚ)
  refine ⟨⟨?_, ?_⟩, ⟨?_, ?_⟩, ?_⟩
  · rw [heq, hfst]
    rcases hmax1 with h | h
    · rw [h]
      have h1 := hmax3 v0 hv0
      rw [h] at h1
      have h2 := (hbd v0 hv0).1
      have h3 : v0 = -(10 ^ 7 : ℚ) := le_antisymm h1 h2
      rwa [← h3]
    · exact h
  · intro v hv; rw [heq, hfst]; exact hmax3 v hv
  · rw [heq, hsnd]
    rcases hmin1 with h | h
    · rw [h]
      have h1 := hmin3 v0 hv0
      rw [h] at h1
      have h2 := (hbd v0 hv0).2
      have h3 : v0 = (10 ^ 7 : ℚ) := le_antisymm h2 h1
      rwa [← h3]
    · exact h
  · intro v hv; rw [heq, hsnd]; exact hmin3 v hv
  · intro i k
    unfold gcNorm
    rw [mul_one_div]

/-- The pool the claim describes: every field's value at EVERY cell of the
grid, boundary cells included (a second, claim-side definition, for
comparison with the source's `gcVals`). -/
def specValsAll (hg : HexGrid) (f : List (List ℚ)) : List ℚ :=
  hg.hexen.foldl
    (fun acc h => acc ++ (List.range f.length).map (fun i => fAt2 f i h.vi)) []

/-- A geometry-free hex (for the contour/labelling claims, which read no
coordinates). -/
def mkPlainHex (vi : Nat) (b : Bool) (nbs : List (Option Nat)) : Hex :=
  ⟨vi, 0, 0, b, nbs, 1, 0, 0⟩

/-- Counterexample grid for C2: cell 0 is interior with six neighbours, cells
1-7 are interior leaves. -/
def cxGridC2 : HexGrid :=
  ⟨[mkPlainHex 0 false [some 1, some 2, some 3, some 4, some 5, some 6],
    mkPlainHex 1 false [], mkPlainHex 2 false [], mkPlainHex 3 false [],
    mkPlainHex 4 false [], mkPlainHex 5 false [], mkPlainHex 6 false [],
    mkPlainHex 7 false []], 1⟩

/-- One field: cell 0 at 1, its six neighbours exactly at 1/2, cell 7 at 0;
min/max are 0 and 1, so normalised values equal the raw ones. -/
def cxFieldC2 : List (List ℚ) := [[1, 1/2, 1/2, 1/2, 1/2, 1/2, 1/2, 0]]

/-- Counterexample grid for C3: cell 0 is a boundary cell. -/
def cxGridC3 : HexGrid :=
  ⟨[mkPlainHex 0 true [], mkPlainHex 1 false [], mkPlainHex 2 false []], 1⟩

/-- One field whose global extreme (10, at the boundary cell 0) is excluded
from the source's min/max pass. -/
def cxFieldC3 : List (List ℚ) := [[10, 0, 1]]

/-- Claim C2 is false as stated: in `cxGridC2` with threshold 1/2, cell 0 is
interior, its normalised value 1 exceeds the threshold, and it has an
existing neighbour at-or-below the threshold (all six are exactly AT it), so
the claim makes it a contour member — but `get_contours` omits it, because
the source requires a neighbour strictly below the threshold. -/
theorem C2_counterexample :
    (gcNorm cxGridC2 cxFieldC2 0 0 > 1/2 ∧ (hexAt cxGridC2 0).onBoundary = false ∧
      ∃ n, (hexAt cxGridC2 0).nb 0 = some n ∧
        gcNorm cxGridC2 cxFieldC2 0 (hexAt cxGridC2 n).vi ≤ 1/2) ∧
    hexAt cxGridC2 0 ∉ (get_contours cxGridC2 cxFieldC2 (1/2)).getD 0 [] := by
  refine ⟨⟨by decide, by decide, ⟨1, by decide, by decide⟩⟩, by decide⟩

/-- Witness for C2_contour_membership at a concrete grid, field and cell. -/
theorem C2_contour_membership_witness :
    0 < cxFieldC2.length ∧
    (hexAt cxGridC2 7 ∈ (get_contours cxGridC2 cxFieldC2 (1/2)).getD 0 [] ↔
      hexAt cxGridC2 7 ∈ cxGridC2.hexen ∧
        gcNorm cxGridC2 cxFieldC2 0 (hexAt cxGridC2 7).vi > 1/2 ∧
        ((hexAt cxGridC2 7).onBoundary = true ∨
          ∃ k, k < 6 ∧ ∃ n, (hexAt cxGridC2 7).nb k = some n ∧
            gcNorm cxGridC2 cxFieldC2 0 (hexAt cxGridC2 n).vi < 1/2)) :=
  ⟨by decide, C2_contour_membership cxGridC2 cxFieldC2 (1/2) 0 (hexAt cxGridC2 7) (by decide)⟩

/-- Claim C3 is false as stated: in `cxGridC3` the global maximum over ALL
cells and fields is 10 (at the boundary cell 0) and the global minimum is 0,
so the claim's normalised value at cell 2 would be
`(1 - 0)/(10 - 0) = 1/10`; the source computes 1, because its min/max pass
excludes boundary cells (min 0, max 1 over cells 1 and 2). -/
theorem C3_counterexample :
    (10 ∈ specValsAll cxGridC3 cxFieldC3 ∧ ∀ v ∈ specValsAll cxGridC3 cxFieldC3, v ≤ 10) ∧
    (0 ∈ specValsAll cxGridC3 cxFieldC3 ∧ ∀ v ∈ specValsAll cxGridC3 cxFieldC3, 0 ≤ v) ∧
    gcNorm cxGridC3 cxFieldC3 0 2 = 1 ∧
    (fAt2 cxFieldC3 0 2 - 0) / (10 - 0) = 1/10 ∧ (1 : ℚ) ≠ 1/10 := by
  refine ⟨⟨by decide, by decide⟩, ⟨by decide, by decide⟩, by decide, by decide, by decide⟩

/-- Witness for C3_joint_normalisation at a concrete grid and field. -/
theorem C3_joint_normalisation_witness :
    (gcVals cxGridC3 cxFieldC3 ≠ [] ∧
      ∀ v ∈ gcVals cxGridC3 cxFieldC3, -(10 ^ 7 : ℚ) ≤ v ∧ v ≤ (10 ^ 7 : ℚ)) ∧
    (((gcMinMax cxGridC3 cxFieldC3).1 ∈ gcVals cxGridC3 cxFieldC3 ∧
        ∀ v ∈ gcVals cxGridC3 cxFieldC3, v ≤ (gcMinMax cxGridC3 cxFieldC3).1) ∧
      ((gcMinMax cxGridC3 cxFieldC3).2 ∈ gcVals cxGridC3 cxFieldC3 ∧
        ∀ v ∈ gcVals cxGridC3 cxFieldC3, (gcMinMax cxGridC3 cxFieldC3).2 ≤ v) ∧
      ∀ i k, gcNorm cxGridC3 cxFieldC3 i k =
        (fAt2 cxFieldC3 i k - (gcMinMax cxGridC3 cxFieldC3).2) /
          ((gcMinMax cxGridC3 cxFieldC3).1 - (gcMinMax cxGridC3 cxFieldC3).2)) :=
  ⟨⟨by decide, by decide⟩,
    C3_joint_normalisation cxGridC3 cxFieldC3 (by decide) (by decide)⟩

/-! ### Claim C4: region labelling -/

/-- Index `i` is the first index attaining the maximum of `g` over `0..N-1`
(the claim's tie-break: the smallest index attaining the maximum under
strict `>` comparison). -/
def isFirstArgmax (g : Nat → ℚ) (N i : Nat) : Prop :=
  i < N ∧ (∀ j, j < N → g j ≤ g i) ∧ (∀ j, j < i → g j < g i)

theorem drFold_inv (f : List (List ℚ)) (N : Nat) (h : Hex) (rtn : List ℚ) :
    ∀ k : Nat,
      ((∀ j, j < k → fAt2 f j h.vi ≤ -(10 ^ 7 : ℚ)) ∧
        (List.range k).foldl
          (fun st i =>
            if fAt2 f i h.vi > st.1 then
              (fAt2 f i h.vi, st.2.set h.vi ((i : ℚ) / (N : ℚ)))
            else st)
          ((-(10 ^ 7) : ℚ), rtn) = ((-(10 ^ 7) : ℚ), rtn)) ∨
      (∃ i, i < k ∧ -(10 ^ 7 : ℚ) < fAt2 f i h.vi ∧
        (∀ j, j < k → fAt2 f j h.vi ≤ fAt2 f i h.vi) ∧
        (∀ j, j < i → fAt2 f j h.vi < fAt2 f i h.vi) ∧
        (List.range k).foldl
          (fun st i =>
            if fAt2 f i h.vi > st.1 then
              (fAt2 f i h.vi, st.2.set h.vi ((i : ℚ) / (N : ℚ)))
            else st)
          ((-(10 ^ 7) : ℚ), rtn) = (fAt2 f i h.vi, rtn.set h.vi ((i : ℚ) / (N : ℚ)))) := by
  intro k
  induction k with
  | zero => exact Or.inl ⟨by omega, by simp⟩
  | succ k ih =>
    rw [List.range_succ, List.foldl_append, List.foldl_cons, List.foldl_nil]
    rcases ih with ⟨hall, heq⟩ | ⟨i, hik, hgt, hub, hstrict, heq⟩
    · rw [heq]
      by_cases hk : fAt2 f k h.vi > -(10 ^ 7 : ℚ)
      · refine Or.inr ⟨k, by omega, hk, ?_, ?_, by rw [if_pos hk]⟩
        · intro j hj
          rcases Nat.lt_succ_iff_lt_or_eq.mp hj with hj | rfl
          · exact le_trans (hall j hj) (le_of_lt hk)
          · exact le_refl _
        · intro j hj; exact lt_of_le_of_lt (hall j hj) hk
      · refine Or.inl ⟨?_, by rw [if_neg hk]⟩
        intro j hj
        rcases Nat.lt_succ_iff_lt_or_eq.mp hj with hj | rfl
        · exact hall j hj
        · exact not_lt.mp hk
    · rw [heq]
      by_cases hk : fAt2 f k h.vi > fAt2 f i h.vi
      · refine Or.inr ⟨k, by omega, lt_trans hgt hk, ?_, ?_, ?_⟩
        · intro j hj
          rcases Nat.lt_succ_iff_lt_or_eq.mp hj with hj | rfl
          · exact le_trans (hub j hj) (le_of_lt hk)
          · exact le_refl _
        · intro j hj; exact lt_of_le_of_lt (hub j hj) hk
        · rw [if_pos hk, List.set_set]
      · refine Or.inr ⟨i, by omega, hgt, ?_, hstrict, by rw [if_neg hk]⟩
        intro j hj
        rcases Nat.lt_succ_iff_lt_or_eq.mp hj with hj | rfl
        · exact hub j hj
        · exact not_lt.mp hk

/-- When some field value at the cell beats the `-1e7` seed, the inner loop
writes `i/N` at the cell's index for the first argmax `i`. -/
theorem drInner_eq (f : List (List ℚ)) (N : Nat) (h : Hex) (rtn : List ℚ)
    (hsent : ∃ i, i < N ∧ -(10 ^ 7 : ℚ) < fAt2 f i h.vi) :
    ∃ i, isFirstArgmax (fun j => fAt2 f j h.vi) N i ∧
      drInner f N h rtn = rtn.set h.vi ((i : ℚ) / (N : ℚ)) := by
  rcases drFold_inv f N h rtn N with ⟨hall, heq⟩ | ⟨i, hiN, _, hub, hstrict, heq⟩
  · obtain ⟨i, hiN, hgt⟩ := hsent
    exact absurd (hall i hiN) (not_le.mpr hgt)
  · exact ⟨i, ⟨hiN, hub, hstrict⟩, by unfold drInner; rw [heq]⟩

/-- The inner loop either leaves the vector unchanged or only writes at the
cell's own index. -/
theorem drInner_shape (f : List (List ℚ)) (N : Nat) (h : Hex) (rtn : List ℚ) :
    drInner f N h rtn = rtn ∨ ∃ q, drInner f N h rtn = rtn.set h.vi q := by
  rcases drFold_inv f N h rtn N with ⟨_, heq⟩ | ⟨i, _, _, _, _, heq⟩
  · exact Or.inl (by unfold drInner; rw [heq])
  · exact Or.inr ⟨_, by unfold drInner; rw [heq]⟩

theorem drInner_length (f : List (List ℚ)) (N : Nat) (h : Hex) (rtn : List ℚ) :
    (drInner f N h rtn).length = rtn.length := by
  rcases drInner_shape f N h rtn with he | ⟨q, he⟩ <;> simp [he]

theorem drFold_preserve (f : List (List ℚ)) :
    ∀ (l : List Hex) (k : Nat), (∀ h' ∈ l, h'.vi ≠ k) → ∀ rtn : List ℚ,
      (l.foldl (fun rtn h => drInner f f.length h rtn) rtn).getD k 0 = rtn.getD k 0 := by
  intro l
  induction l with
  | nil => intro k _ rtn; rfl
  | cons h t ih =>
    intro k hk rtn
    simp only [List.foldl_cons]
    rw [ih k (fun h' hh => hk h' (List.mem_cons_of_mem _ hh))]
    rcases drInner_shape f f.length h rtn with he | ⟨q, he⟩
    · rw [he]
    · rw [he, getD_set_ne _ _ _ _ _ (hk h (List.mem_cons_self _ _))]

theorem drFold_length (f : List (List ℚ)) :
    ∀ (l : List Hex) (rtn : List ℚ),
      (l.foldl (fun rtn h => drInner f f.length h rtn) rtn).length = rtn.length := by
  intro l
  induction l with
  | nil => intro rtn; rfl
  | cons h t ih =>
    intro rtn
    simp only [List.foldl_cons]
    rw [ih, drInner_length]

theorem drInner_entries (f : List (List ℚ)) (N : Nat) (h : Hex) (rtn : List ℚ)
    (hr : ∀ e ∈ rtn, 0 ≤ e ∧ e < 1) :
    ∀ e ∈ drInner f N h rtn, 0 ≤ e ∧ e < 1 := by
  rcases drFold_inv f N h rtn N with ⟨_, heq⟩ | ⟨i, hiN, _, _, _, heq⟩
  · unfold drInner; rw [heq]; exact hr
  · unfold drInner; rw [heq]
    intro e he
    rcases List.mem_or_eq_of_mem_set he with he | rfl
    · exact hr e he
    · have hN : (0 : ℚ) < (N : ℚ) := by
        have : 0 < N := by omega
        exact_mod_cast this
      constructor
      · exact div_nonneg (by exact_mod_cast Nat.zero_le i) (le_of_lt hN)
      · rw [div_lt_one hN]
        exact_mod_cast hiN

/-- Claim C4 (amended): [first conjunct] for any grid whose cells have
pairwise-distinct indices, any cell whose index is in range and at which at
least one field value beats the `-1e7` running-maximum seed, the label
written by `dirichlet_regions` is `i*/N` for the first index `i*` attaining
the maximum (strict `>` tie-break); [second conjunct] unconditionally every
returned label satisfies `0 ≤ label < 1`. -/
theorem C4_region_labels :
    (∀ (hg : HexGrid) (f : List (List ℚ)) (h : Hex),
        (hg.hexen.map Hex.vi).Nodup → h ∈ hg.hexen →
        h.vi < (f.getD 0 []).length →
        (∃ i, i < f.length ∧ -(10 ^ 7 : ℚ) < fAt2 f i h.vi) →
        ∃ i, isFirstArgmax (fun j => fAt2 f j h.vi) f.length i ∧
          (dirichlet_regions hg f).getD h.vi 0 = (i : ℚ) / (f.length : ℚ)) ∧
    (∀ (hg : HexGrid) (f : List (List ℚ)) (k : Nat),
        0 ≤ (dirichlet_regions hg f).getD k 0 ∧ (dirichlet_regions hg f).getD k 0 < 1) := by
  constructor
  · intro hg f h hnd hmem hvi hsent
    obtain ⟨l1, l2, he⟩ := List.append_of_mem hmem
    rw [he, List.map_append, List.map_cons] at hnd
    obtain ⟨_, hnd2, hdisj⟩ := List.nodup_append.mp hnd
    have hne1 : ∀ h' ∈ l1, h'.vi ≠ h.vi := by
      intro h' hh heq
      exact hdisj (heq ▸ List.mem_map_of_mem Hex.vi hh) (List.mem_cons_self _ _)
    have hne2 : ∀ h' ∈ l2, h'.vi ≠ h.vi := by
      intro h' hh heq
      exact (List.nodup_cons.mp hnd2).1 (heq ▸ List.mem_map_of_mem Hex.vi hh)
    unfold dirichlet_regions
    rw [he, List.foldl_append, List.foldl_cons]
    obtain ⟨i, hfa, hset⟩ :=
      drInner_eq f f.length h (l1.foldl (fun rtn h => drInner f f.length h rtn)
        (List.replicate (f.getD 0 []).length 0)) hsent
    refine ⟨i, hfa, ?_⟩
    rw [drFold_preserve f l2 h.vi hne2, hset,
      getD_set_eq _ _ _ _ (by rw [drFold_length, List.length_replicate]; exact hvi)]
  · intro hg f k
    have hall : ∀ e ∈ dirichlet_regions hg f, 0 ≤ e ∧ e < 1 := by
      unfold dirichlet_regions
      generalize hg.hexen = l
      have hinit : ∀ e ∈ List.replicate (f.getD 0 []).length (0 : ℚ), 0 ≤ e ∧ e < 1 := by
        intro e he
        rw [List.eq_of_mem_replicate he]
        norm_num
      revert hinit
      generalize List.replicate (f.getD 0 []).length (0 : ℚ) = rtn
      induction l generalizing rtn with
      | nil => intro hinit; exact hinit
      | cons h t ih =>
        intro hinit
        simp only [List.foldl_cons]
        exact ih _ (drInner_entries f f.length h rtn hinit)
    by_cases hk : k < (dirichlet_regions hg f).length
    · have : (dirichlet_regions hg f).getD k 0 ∈ dirichlet_regions hg f := by
        rw [List.getD_eq_getElem _ _ hk]
        exact List.getElem_mem _
      exact hall _ this
    · rw [List.getD_eq_default _ _ (by omega)]
      norm_num

/-- Counterexample grid and field for C4: a single cell where both field
values are at or below the `-1e7` seed of the running maximum. -/
def cxGridC4 : HexGrid := ⟨[mkPlainHex 0 false []], 1⟩

/-- Field 0 is −2·10⁷, field 1 is −10⁷: the true first argmax is index 1. -/
def cxFieldC4 : List (List ℚ) := [[-(2 * 10 ^ 7 : ℚ)], [-(10 ^ 7 : ℚ)]]

/-- Claim C4 is false as stated: at the only cell of `cxGridC4` the first
index attaining the maximum of the two field values is 1, so the claim's
label is 1/2 — but `dirichlet_regions` returns 0, because its running
maximum starts at `-1e7` and the strict `>` test never fires for values at
or below it. -/
theorem C4_counterexample :
    isFirstArgmax (fun j => fAt2 cxFieldC4 j 0) 2 1 ∧
    (dirichlet_regions cxGridC4 cxFieldC4).getD 0 0 = 0 ∧ (1 : ℚ) / 2 ≠ 0 := by
  refine ⟨⟨by omega, ?_, ?_⟩, by decide, by norm_num⟩
  · intro j hj
    interval_cases j <;> decide
  · intro j hj
    interval_cases j <;> decide

/-- Witness for C4_region_labels at a concrete grid and field. -/
theorem C4_region_labels_witness :
    ((cxGridC3.hexen.map Hex.vi).Nodup ∧ hexAt cxGridC3 1 ∈ cxGridC3.hexen ∧
      (hexAt cxGridC3 1).vi < (cxFieldC3.getD 0 []).length ∧
      (0 < cxFieldC3.length ∧ -(10 ^ 7 : ℚ) < fAt2 cxFieldC3 0 (hexAt cxGridC3 1).vi)) ∧
    (∃ i, isFirstArgmax (fun j => fAt2 cxFieldC3 j (hexAt cxGridC3 1).vi) cxFieldC3.length i ∧
      (dirichlet_regions cxGridC3 cxFieldC3).getD (hexAt cxGridC3 1).vi 0 =
        (i : ℚ) / (cxFieldC3.length : ℚ)) ∧
    0 ≤ (dirichlet_regions cxGridC3 cxFieldC3).getD 2 0 ∧
    (dirichlet_regions cxGridC3 cxFieldC3).getD 2 0 < 1 :=
  ⟨⟨by decide, by decide, by decide, by decide, by decide⟩,
    C4_region_labels.1 cxGridC3 cxFieldC3 (hexAt cxGridC3 1) (by decide) (by decide)
      (by decide) ⟨0, by decide, by decide⟩,
    C4_region_labels.2 cxGridC3 cxFieldC3 2⟩

/-! ### Claims C5 and C1: boundary policy and the orchestration cap -/

theorem mem_foldl_append {α β : Type} (g : α → List β) :
    ∀ (l : List α) (acc : List β) (a : β),
      a ∈ l.foldl (fun acc x => acc ++ g x) acc ↔ a ∈ acc ∨ ∃ x ∈ l, a ∈ g x := by
  intro l
  induction l with
  | nil => intro acc a; simp
  | cons x t ih =>
    intro acc a
    simp only [List.foldl_cons]
    rw [ih]
    simp only [List.mem_append, List.mem_cons]
    constructor
    · rintro (⟨h | h⟩ | ⟨y, hy, hg⟩)
      · exact Or.inl h
      · exact Or.inr ⟨x, Or.inl rfl, h⟩
      · exact Or.inr ⟨y, Or.inr hy, hg⟩
    · rintro (h | ⟨y, rfl | hy, hg⟩)
      · exact Or.inl (Or.inl h)
      · exact Or.inl (Or.inr hg)
      · exact Or.inr ⟨y, hy, hg⟩

theorem vtxBoundaryAt_onBoundary (hg : HexGrid) (f : List ℚ) (h : Hex) (ni : Nat) :
    ∀ a ∈ vtxBoundaryAt hg f h ni, a.onBoundary = true := by
  intro a ha
  unfold vtxBoundaryAt at ha
  rcases hnb : h.nb ni with _ | n <;> simp only [hnb] at ha
  · cases ha
  · by_cases h1 : fAt f (hexAt hg n).vi ≠ fAt f h.vi
    · rw [if_pos h1] at ha
      by_cases h2 : (h.nb ((ni + 1) % 6)).isNone
      · rw [if_pos h2] at ha
        rw [List.mem_singleton.mp ha]
      · rw [if_neg h2] at ha
        by_cases h3 : (h.nb (if ni > 0 then ni - 1 else 5)).isNone
        · rw [if_pos h3] at ha
          rw [List.mem_singleton.mp ha]
        · rw [if_neg h3] at ha
          cases ha
    · rw [if_neg h1] at ha
      cases ha

theorem vtxInteriorAt_onBoundary (hg : HexGrid) (f : List ℚ) (h : Hex) (ni : Nat) :
    ∀ a ∈ vtxInteriorAt hg f h ni, a.onBoundary = false := by
  intro a ha
  unfold vtxInteriorAt at ha
  rcases hnb : h.nb ni with _ | n <;> simp only [hnb] at ha
  · cases ha
  · by_cases h1 : fAt f (hexAt hg n).vi ≠ fAt f h.vi
    · rw [if_pos h1] at ha
      rcases hnb2 : h.nb ((ni + 1) % 6) with _ | n2 <;> simp only [hnb2] at ha
      · cases ha
      · by_cases h2 : fAt f (hexAt hg n2).vi ≠ fAt f h.vi ∧
            fAt f (hexAt hg n2).vi ≠ fAt f (hexAt hg n).vi
        · rw [if_pos h2] at ha
          rw [List.mem_singleton.mp ha]
          rfl
        · rw [if_neg h2] at ha
          cases ha
    · rw [if_neg h1] at ha
      cases ha

theorem dvLoopT_owners (hg : HexGrid) (f : List ℚ) (wfuel pfuel : Nat) :
    ∀ (rem dvIdx dc : Nat) (verts : List DirichVtx) (doms : List (List DirichVtx)),
      ∀ hx ∈ (dvLoopT hg f wfuel pfuel rem dvIdx dc verts doms).2,
        hx.boundaryHex = false := by
  intro rem
  induction rem with
  | zero =>
    intro dvIdx dc verts doms hx hmem
    cases hmem
  | succ rem ih =>
    intro dvIdx dc verts doms hx hmem
    unfold dvLoopT at hmem
    by_cases hdc : dc < 3
    · rw [if_pos hdc] at hmem
      by_cases hb : (hexAt hg (verts.getD dvIdx default).hi).boundaryHex
      · rw [if_pos hb] at hmem
        exact ih _ _ _ _ hx hmem
      · rw [if_neg hb] at hmem
        rcases hpd : process_domain hg f wfuel pfuel dvIdx default ⟨verts, [], (Fmax, Fmax)⟩
          with e | ⟨succ, st⟩ <;> simp only [hpd] at hmem
        · rw [List.mem_singleton.mp hmem]
          exact Bool.not_eq_true _ ▸ (by simpa using hb)
        · rcases List.mem_cons.mp hmem with rfl | hmem
          · simpa using hb
          · exact ih _ _ _ _ hx hmem
    · rw [if_neg hdc] at hmem
      cases hmem

theorem dvLoopT_fst (hg : HexGrid) (f : List ℚ) (wfuel pfuel : Nat) :
    ∀ (rem dvIdx dc : Nat) (verts : List DirichVtx) (doms : List (List DirichVtx)),
      (dvLoopT hg f wfuel pfuel rem dvIdx dc verts doms).1 =
        dvLoop hg f wfuel pfuel rem dvIdx dc verts doms := by
  intro rem
  induction rem with
  | zero => intro dvIdx dc verts doms; rfl
  | succ rem ih =>
    intro dvIdx dc verts doms
    unfold dvLoopT dvLoop
    by_cases hdc : dc < 3
    · rw [if_pos hdc, if_pos hdc]
      by_cases hb : (hexAt hg (verts.getD dvIdx default).hi).boundaryHex
      · rw [if_pos hb, if_pos hb]
        exact ih _ _ _ _
      · rw [if_neg hb, if_neg hb]
        rcases hpd : process_domain hg f wfuel pfuel dvIdx default ⟨verts, [], (Fmax, Fmax)⟩
          with e | ⟨succ, st⟩ <;> simp only [hpd]
        exact ih _ _ _ _
    · rw [if_neg hdc, if_neg hdc]

/-- Claim C5 (amended): every vertex appended by the boundary-specific branch
of `vertex_test` has `onBoundary = true`; the interior triple-point branch —
which also runs on boundary hexes — appends vertices with
`onBoundary = false`; and the closure loop of `dirichlet_vertices` never
submits to `process_domain` a candidate whose OWNING CELL is a boundary hex
(the owners recorded by the instrumented loop `dvLoopT`, which computes the
same result as `dvLoop`, all have `boundaryHex = false`; the skip test at
ShapeAnalysis.h line 847 reads `dv->hi->boundaryHex`, not `onBoundary`). -/
theorem C5_boundary_exclusion :
    (∀ (hg : HexGrid) (f : List ℚ) (h : Hex),
        ∀ a ∈ vtxBoundary hg f h, a.onBoundary = true) ∧
    (∀ (hg : HexGrid) (f : List ℚ) (h : Hex),
        ∀ a ∈ vtxInterior hg f h, a.onBoundary = false) ∧
    (∀ (hg : HexGrid) (f : List ℚ) (wfuel pfuel rem dvIdx dc : Nat)
        (verts : List DirichVtx) (doms : List (List DirichVtx)),
        (∀ hx ∈ (dvLoopT hg f wfuel pfuel rem dvIdx dc verts doms).2,
          hx.boundaryHex = false) ∧
        (dvLoopT hg f wfuel pfuel rem dvIdx dc verts doms).1 =
          dvLoop hg f wfuel pfuel rem dvIdx dc verts doms) := by
  refine ⟨?_, ?_, ?_⟩
  · intro hg f h a ha
    rcases (mem_foldl_append _ _ _ _).mp ha with h0 | ⟨ni, _, ha⟩
    · cases h0
    · exact vtxBoundaryAt_onBoundary hg f h ni a ha
  · intro hg f h a ha
    rcases (mem_foldl_append _ _ _ _).mp ha with h0 | ⟨ni, _, ha⟩
    · cases h0
    · exact vtxInteriorAt_onBoundary hg f h ni a ha
  · intro hg f wfuel pfuel rem dvIdx dc verts doms
    exact ⟨dvLoopT_owners hg f wfuel pfuel rem dvIdx dc verts doms,
      dvLoopT_fst hg f wfuel pfuel rem dvIdx dc verts doms⟩

/-- Counterexample grid for C5: cell 0 is a boundary hex with neighbours of
two further identities at adjacent directions 1 and 2 — an interior-style
triple point on a boundary cell. -/
def cxGridC5 : HexGrid :=
  ⟨[⟨0, 0, 0, true, [none, some 1, some 2, none, none, none], 1, 1/2, 4/7⟩,
    mkPlainHex 1 false [], mkPlainHex 2 false []], 1⟩

/-- Identities 9 (self), 1 and 2 for `cxGridC5`. -/
def cxFieldC5 : List ℚ := [9, 1, 2]

/-- Claim C5 is false as stated: `vertex_test` on the boundary hex of
`cxGridC5` also runs its interior triple-point branch and appends a third
vertex (at corner 1, neighbour pair (2, 1)) whose `onBoundary` flag is
false. -/
theorem C5_counterexample :
    (hexAt cxGridC5 0).boundaryHex = true ∧
    ∃ a ∈ vertex_test cxGridC5 cxFieldC5 (hexAt cxGridC5 0), a.onBoundary = false := by
  refine ⟨by decide,
    ⟨(vertex_test cxGridC5 cxFieldC5 (hexAt cxGridC5 0)).getD 2 default, by decide, by decide⟩⟩

/-- Grid for the C1 failing input: one boundary hex (index 0) and one
interior hex (index 1), no neighbours, uniform identity (so `vertex_test`
adds no candidates of its own). -/
def cxGridC1 : HexGrid := ⟨[mkPlainHex 0 true [], mkPlainHex 1 false []], 1⟩

/-- The uniform identity field for `cxGridC1`. -/
def cxFieldC1 : List ℚ := [5, 5]

/-- A candidate owned by the boundary hex of `cxGridC1`. -/
def bVtxC1 : DirichVtx := ⟨(0, 0), 1, 5, (1, 2), 0, false, false, [], []⟩

/-- A candidate owned by the interior hex of `cxGridC1`. -/
def nVtxC1 : DirichVtx := ⟨(0, 0), 1, 5, (1, 2), 1, false, false, [], []⟩

/-- The caller-supplied candidate list for the C1 failing input: four
boundary-owned candidates ahead of one interior-owned candidate. -/
def vertsC1 : List DirichVtx := [bVtxC1, bVtxC1, bVtxC1, bVtxC1, nVtxC1]

/-- Claim C1 fails on the code (the spec flags this as a likely debugging
leftover): the closure loop of `dirichlet_vertices` is capped by
`domcount++ < 3` (ShapeAnalysis.h line 844), so on `vertsC1` it consumes its
three iterations skipping the first three boundary-owned candidates and then
stops — the fourth boundary-owned candidate is never closed and the
unclosed, NON-boundary candidate at index 4 is never attempted
(`process_domain` always closes the candidate it is given, so an untouched
`closed` flag shows it was never submitted), even though candidates were
not exhausted. -/
theorem C1_domcount_cap :
    dirichlet_vertices cxGridC1 cxFieldC1 vertsC1 1 1 =
      Except.ok ([], [{ bVtxC1 with closed := true }, { bVtxC1 with closed := true },
        { bVtxC1 with closed := true }, bVtxC1, nVtxC1]) ∧
    nVtxC1.closed = false ∧ (hexAt cxGridC1 nVtxC1.hi).boundaryHex = false := by
  exact ⟨by decide, by decide, by decide⟩

/-- Witness for C5_boundary_exclusion: concrete vertices from both branches
of `vertex_test` on `cxGridC5`, and a concrete closure-loop run whose
recorded owner is an interior hex. -/
theorem C5_boundary_exclusion_witness :
    ((vtxBoundary cxGridC5 cxFieldC5 (hexAt cxGridC5 0)).getD 0 default ∈
        vtxBoundary cxGridC5 cxFieldC5 (hexAt cxGridC5 0) ∧
      ((vtxBoundary cxGridC5 cxFieldC5 (hexAt cxGridC5 0)).getD 0 default).onBoundary = true) ∧
    ((vtxInterior cxGridC5 cxFieldC5 (hexAt cxGridC5 0)).getD 0 default ∈
        vtxInterior cxGridC5 cxFieldC5 (hexAt cxGridC5 0) ∧
      ((vtxInterior cxGridC5 cxFieldC5 (hexAt cxGridC5 0)).getD 0 default).onBoundary = false) ∧
    (hexAt cxGridC1 1 ∈ (dvLoopT cxGridC1 cxFieldC1 1 1 1 0 0 [nVtxC1] []).2 ∧
      (hexAt cxGridC1 1).boundaryHex = false) ∧
    (dvLoopT cxGridC1 cxFieldC1 1 1 1 0 0 [nVtxC1] []).1 =
      dvLoop cxGridC1 cxFieldC1 1 1 1 0 0 [nVtxC1] [] :=
  ⟨⟨by decide, C5_boundary_exclusion.1 cxGridC5 cxFieldC5 (hexAt cxGridC5 0)
      ((vtxBoundary cxGridC5 cxFieldC5 (hexAt cxGridC5 0)).getD 0 default) (by decide)⟩,
    ⟨by decide, C5_boundary_exclusion.2.1 cxGridC5 cxFieldC5 (hexAt cxGridC5 0)
      ((vtxInterior cxGridC5 cxFieldC5 (hexAt cxGridC5 0)).getD 0 default) (by decide)⟩,
    ⟨by decide, (C5_boundary_exclusion.2.2 cxGridC1 cxFieldC1 1 1 1 0 0 [nVtxC1] []).1 _
      (by decide)⟩,
    (C5_boundary_exclusion.2.2 cxGridC1 cxFieldC1 1 1 1 0 0 [nVtxC1] []).2⟩

/-! ### Claim C10: the sentinel guard of `walk_to_neighbour` -/

/-- Claim C10: when either entry of `v.neighb` is the boundary sentinel `-1`,
`walk_to_neighbour` returns the coordinate `(0,0)` at once, leaving the
`pathto_neighbour` buffer and the `next_neighb_dom`/`next_neighb_coord`
outputs unchanged; the result does not depend on the grid, the identity
field or the walk fuel, so no walk (no `walk_common` call) takes place. -/
theorem C10_walk_to_neighbour_sentinel (v : DirichVtx)
    (hs : v.neighb.1 = -1 ∨ v.neighb.2 = -1) :
    ∀ (hg : HexGrid) (f : List ℚ) (nnd0 : ℚ) (nnc0 : ℚ × ℚ) (wfuel : Nat),
      walk_to_neighbour hg f v nnd0 nnc0 wfuel =
        Except.ok ((0, 0), v.pathto_neighbour, nnd0, nnc0) := by
  intro hg f nnd0 nnc0 wfuel
  unfold walk_to_neighbour
  rw [if_pos hs]

/-- A vertex with the sentinel in its neighbour pair and non-trivial
buffers. -/
def sVtxC10 : DirichVtx := ⟨(3, 4), 1, 5, (-1, 2), 0, false, false, [(1, 1)], [(2, 2)]⟩

/-- Witness for C10_walk_to_neighbour_sentinel at a concrete vertex. -/
theorem C10_walk_to_neighbour_sentinel_witness :
    (sVtxC10.neighb.1 = -1 ∨ sVtxC10.neighb.2 = -1) ∧
    walk_to_neighbour cxGridC1 cxFieldC1 sVtxC10 7 (5, 6) 3 =
      Except.ok ((0, 0), sVtxC10.pathto_neighbour, 7, (5, 6)) :=
  ⟨Or.inl (by decide),
    C10_walk_to_neighbour_sentinel sVtxC10 (Or.inl (by decide)) cxGridC1 cxFieldC1 7 (5, 6) 3⟩

/-! ### Claim C7: fatal walk errors are exceptions, distinct from closure failure -/

/-- Claim C7: [first conjunct] when the B-side search flanking the seed
corner finds no acceptable neighbour, `walk_common`'s loop raises the
explicit error `noSecondHex` (the throw at ShapeAnalysis.h line 503);
[second conjunct] when the located B-side hex is not the neighbour of the
A-side hex in the derived direction, it raises `wrongDirection` (the throw
at line 544); [third conjunct] `process_domain` propagates any walk error
as an error, which is distinguishable from the recoverable
"domain not found" outcome `Except.ok (false, _)`. -/
theorem C7_walk_raises_errors :
    (∀ (hg : HexGrid) (f : List ℚ) (edgedoms : ℚ × ℚ) (wfuel : Nat) (st : WalkState)
        (hexit1 dirn : Nat),
        findInitialDirn hg f edgedoms.1 st.hexit_first st.v_init dirList st.hexit =
          (hexit1, some dirn) →
        findSecond hg f edgedoms.2 st.nnc st.hexit_first dirn = none →
        walkLoop hg f edgedoms (wfuel + 1) st = Except.error WErr.noSecondHex) ∧
    (∀ (hg : HexGrid) (f : List ℚ) (edgedoms : ℚ × ℚ) (wfuel : Nat) (st : WalkState)
        (hexit1 dirn hn sdirn hhnd : Nat),
        findInitialDirn hg f edgedoms.1 st.hexit_first st.v_init dirList st.hexit =
          (hexit1, some dirn) →
        findSecond hg f edgedoms.2 st.nnc st.hexit_first dirn = some (hn, sdirn) →
        hexHexNeighbDirn dirn sdirn = some hhnd →
        (hexAt hg hexit1).nb hhnd ≠ some hn →
        walkLoop hg f edgedoms (wfuel + 1) st = Except.error WErr.wrongDirection) ∧
    (∀ (hg : HexGrid) (f : List ℚ) (wfuel pfuel dvIdx : Nat) (fv : DirichVtx)
        (s : PDState) (e : WErr),
        walk_to_next hg f (s.vertices.getD dvIdx default) wfuel s.nnc = Except.error e →
        process_domain hg f wfuel (pfuel + 1) dvIdx fv s = Except.error e ∧
        ∀ (b : Bool) (s' : PDState),
          (Except.error e : Except WErr (Bool × PDState)) ≠ Except.ok (b, s')) := by
  refine ⟨?_, ?_, ?_⟩
  · intro hg f edgedoms wfuel st hexit1 dirn h1 h2
    rw [walkLoop_succ]
    unfold walkIteration
    simp only [h1, h2]
  · intro hg f edgedoms wfuel st hexit1 dirn hn sdirn hhnd h1 h2 h3 h4
    rw [walkLoop_succ]
    unfold walkIteration
    simp only [h1, h2, h3]
    rw [if_pos h4]
  · intro hg f wfuel pfuel dvIdx fv s e hw
    constructor
    · unfold process_domain
      simp only [hw]
    · intro b s' hc
      cases hc

/-- Hexes of the walkable three-cell configuration: `hexS` owns the seed
corner, `hexA` is its NE neighbour carrying the first edge identity, `hexB`
its NW neighbour carrying the second, with `hexB` west of `hexA`. -/
def hexS : Hex := ⟨0, 0, 0, false, [none, some 1, some 2, none, none, none], 1, 1/2, 4/7⟩

/-- The A-side hex of the walkable configuration. -/
def hexA : Hex := ⟨1, 1/2, 6/7, false, [none, none, none, some 2, none, none], 1, 1/2, 4/7⟩

/-- The B-side hex of the walkable configuration. -/
def hexB : Hex := ⟨2, -1/2, 6/7, false, [], 1, 1/2, 4/7⟩

/-- A three-cell grid on which an edge walk completes normally. -/
def walkGrid : HexGrid := ⟨[hexS, hexA, hexB], 1⟩

/-- Identities 9/1/2 for `walkGrid`. -/
def walkField : List ℚ := [9, 1, 2]

/-- A candidate vertex at corner 0 of `hexS` whose edge identities are
(1, 2). -/
def walkVtx : DirichVtx := ⟨(1/2, 2/7), 1, 1, (2, 3), 0, false, false, [], []⟩

/-- Variant of `hexA` with no recorded neighbours, breaking the adjacency
invariant of the walk. -/
def hexA' : Hex := ⟨1, 1/2, 6/7, false, [], 1, 1/2, 4/7⟩

/-- `walkGrid` with `hexA'`: the B-side hex is found from `hexS`, but is not
the neighbour of `hexA'` in the derived direction. -/
def wdGrid : HexGrid := ⟨[hexS, hexA', hexB], 1⟩

/-- A one-cell grid with no neighbours: the B-side search must fail. -/
def isoGrid : HexGrid := ⟨[⟨0, 0, 0, false, [], 1, 1/2, 4/7⟩], 1⟩

/-- The identity field of `isoGrid`. -/
def isoField : List ℚ := [9]

/-- A candidate vertex at corner 1 of the isolated hex. -/
def isoVtx : DirichVtx := ⟨(0, 4/7), 1, 1, (2, 0), 0, false, false, [], []⟩

/-- The walk state entering the loop for `isoVtx` on `isoGrid`. -/
def isoSt : WalkState := initWalkState isoGrid isoField isoVtx [] (1, 2) Fmax (Fmax, Fmax)

/-- The walk state entering the loop for `walkVtx` on `wdGrid`. -/
def wdSt : WalkState := initWalkState wdGrid walkField walkVtx [] (1, 2) Fmax (Fmax, Fmax)

/-- Witness for C7_walk_raises_errors: on the isolated hex the B-side search
fails and the loop reports `noSecondHex`; on `wdGrid` the adjacency check
fails and it reports `wrongDirection`; `process_domain` propagates the
former as an error distinct from `ok (false, _)`. -/
theorem C7_walk_raises_errors_witness :
    (findInitialDirn isoGrid isoField 1 isoSt.hexit_first isoSt.v_init dirList isoSt.hexit =
        (0, some 0) ∧
      findSecond isoGrid isoField 2 isoSt.nnc isoSt.hexit_first 0 = none ∧
      walkLoop isoGrid isoField (1, 2) 1 isoSt = Except.error WErr.noSecondHex) ∧
    (findInitialDirn wdGrid walkField 1 wdSt.hexit_first wdSt.v_init dirList wdSt.hexit =
        (1, some 1) ∧
      findSecond wdGrid walkField 2 wdSt.nnc wdSt.hexit_first 1 = some (2, 2) ∧
      hexHexNeighbDirn 1 2 = some 3 ∧
      walkLoop wdGrid walkField (1, 2) 1 wdSt = Except.error WErr.wrongDirection) ∧
    (walk_to_next isoGrid isoField isoVtx 1 (Fmax, Fmax) = Except.error WErr.noSecondHex ∧
      process_domain isoGrid isoField 1 1 0 default ⟨[isoVtx], [], (Fmax, Fmax)⟩ =
        Except.error WErr.noSecondHex ∧
      (Except.error WErr.noSecondHex : Except WErr (Bool × PDState)) ≠
        Except.ok (false, ⟨[isoVtx], [], (Fmax, Fmax)⟩)) := by
  refine ⟨⟨by decide, by decide, ?_⟩, ⟨by decide, by decide, by decide, ?_⟩, by decide, ?_, ?_⟩
  · exact C7_walk_raises_errors.1 isoGrid isoField (1, 2) 0 isoSt 0 0 (by decide) (by decide)
  · exact C7_walk_raises_errors.2.1 wdGrid walkField (1, 2) 0 wdSt 1 1 2 2 3 (by decide)
      (by decide) (by decide) (by decide)
  · exact (C7_walk_raises_errors.2.2 isoGrid isoField 1 0 0 default
      ⟨[isoVtx], [], (Fmax, Fmax)⟩ WErr.noSecondHex (by decide)).1
  · exact (C7_walk_raises_errors.2.2 isoGrid isoField 1 0 0 default
      ⟨[isoVtx], [], (Fmax, Fmax)⟩ WErr.noSecondHex (by decide)).2 false _

/-! ### Claim C6: one step of `process_domain` -/

/-- The candidate the iterator `dv` designates. -/
def vAt (s : PDState) (dvIdx : Nat) : DirichVtx := s.vertices.getD dvIdx default

/-- The state after the unconditional actions of one `process_domain` call:
the candidate at `dvIdx` marked closed in the shared list, the candidate
(with its freshly walked `pathto_next`) appended to the in-progress domain,
and `next_neighb_coord` updated by the walk. -/
def pdStep (s : PDState) (dvIdx : Nat) (w : WalkResult) : PDState :=
  ⟨s.vertices.set dvIdx { vAt s dvIdx with closed := true },
   s.domain ++ [{ vAt s dvIdx with pathto_next := w.path }], w.nnc⟩

/-- The effective `first_vtx` of a call: the current candidate when the
incoming one is unset, the incoming one otherwise. -/
def pdFv (firstVtx v : DirichVtx) : DirichVtx :=
  if firstVtx.unset then v else firstVtx

/-- The claim's wording of the candidate-search condition: an unclosed vertex
located (within tolerance) at the walked-to coordinate whose domain identity
equals `v.f` and whose neighbour pair equals (the newly discovered identity,
`v.neighb.first`). -/
def pdMatchP (w' : DirichVtx) (vf vnb1 nnd : ℚ) (coord : ℚ × ℚ) : Prop :=
  w'.closed = false ∧ w'.compare coord = true ∧ w'.f = vf ∧ w'.neighb = (nnd, vnb1)

instance (w' : DirichVtx) (vf vnb1 nnd : ℚ) (coord : ℚ × ℚ) :
    Decidable (pdMatchP w' vf vnb1 nnd coord) := by
  unfold pdMatchP; infer_instance

theorem pdMatch_iff (vf vnb1 nnd : ℚ) (coord : ℚ × ℚ) (w' : DirichVtx) :
    pdMatch vf vnb1 nnd coord w' = true ↔ pdMatchP w' vf vnb1 nnd coord := by
  unfold pdMatch pdMatchP
  simp only [Bool.and_eq_true, Bool.not_eq_true', decide_eq_true_eq, Prod.ext_iff]
  tauto

/-- Claim C6: one call of `process_domain` on the candidate at `dvIdx`, when
the walk to the next vertex returns coordinate `w.ret` with newly discovered
identity `w.nnd`: the candidate is marked closed and appended (with its
walked path) to the domain; if the walked-to coordinate matches the domain's
starting vertex the call returns true; otherwise the candidate list is
searched for an unclosed vertex at that coordinate with identity `v.f` and
neighbour pair `(w.nnd, v.neighb.first)` — no match returns false, a match
on a boundary vertex returns false, and a match on a non-boundary vertex
recurses on it. -/
theorem C6_process_domain_step (hg : HexGrid) (f : List ℚ) (wfuel fuel dvIdx : Nat)
    (firstVtx : DirichVtx) (s : PDState) (w : WalkResult)
    (hidx : dvIdx < s.vertices.length)
    (hw : walk_to_next hg f (vAt s dvIdx) wfuel s.nnc = Except.ok w) :
    (((pdStep s dvIdx w).vertices.getD dvIdx default).closed = true) ∧
    ((pdStep s dvIdx w).domain =
      s.domain ++ [{ vAt s dvIdx with pathto_next := w.path }]) ∧
    ((pdFv firstVtx (vAt s dvIdx)).compare w.ret = true →
      process_domain hg f wfuel (fuel + 1) dvIdx firstVtx s =
        Except.ok (true, pdStep s dvIdx w)) ∧
    ((pdFv firstVtx (vAt s dvIdx)).compare w.ret = false →
      (∀ k, k < (pdStep s dvIdx w).vertices.length →
        ¬ pdMatchP ((pdStep s dvIdx w).vertices.getD k default)
            (vAt s dvIdx).f (vAt s dvIdx).neighb.1 w.nnd w.ret) →
      process_domain hg f wfuel (fuel + 1) dvIdx firstVtx s =
        Except.ok (false, pdStep s dvIdx w)) ∧
    (∀ k, (pdFv firstVtx (vAt s dvIdx)).compare w.ret = false →
      (pdStep s dvIdx w).vertices.findIdx?
          (pdMatch (vAt s dvIdx).f (vAt s dvIdx).neighb.1 w.nnd w.ret) = some k →
      pdMatchP ((pdStep s dvIdx w).vertices.getD k default)
          (vAt s dvIdx).f (vAt s dvIdx).neighb.1 w.nnd w.ret ∧
      (((pdStep s dvIdx w).vertices.getD k default).onBoundary = true →
        process_domain hg f wfuel (fuel + 1) dvIdx firstVtx s =
          Except.ok (false, pdStep s dvIdx w)) ∧
      (((pdStep s dvIdx w).vertices.getD k default).onBoundary = false →
        process_domain hg f wfuel (fuel + 1) dvIdx firstVtx s =
          process_domain hg f wfuel fuel k (pdFv firstVtx (vAt s dvIdx))
            (pdStep s dvIdx w))) := by
  unfold pdStep pdFv vAt at *
  refine ⟨?_, rfl, ?_, ?_, ?_⟩
  · rw [getD_set_eq _ _ _ _ hidx]
  · intro hcmp
    unfold process_domain
    simp only [hw]
    rw [if_pos hcmp]
  · intro hcmp hnone
    dsimp only at hnone
    have hfi : (s.vertices.set dvIdx
          { s.vertices.getD dvIdx default with closed := true }).findIdx?
        (pdMatch (s.vertices.getD dvIdx default).f
          (s.vertices.getD dvIdx default).neighb.1 w.nnd w.ret) = none := by
      apply findIdx?_none
      intro k hk
      by_cases hb : pdMatch (s.vertices.getD dvIdx default).f
          (s.vertices.getD dvIdx default).neighb.1 w.nnd w.ret
          ((s.vertices.set dvIdx
            { s.vertices.getD dvIdx default with closed := true }).getD k default) = true
      · exact absurd ((pdMatch_iff _ _ _ _ _).mp hb) (hnone k hk)
      · simpa using hb
    unfold process_domain
    simp only [hw]
    rw [if_neg (by rw [hcmp]; simp), hfi]
  · intro k hcmp hfound
    dsimp only at hfound
    have hspec := findIdx?_spec _ _ _ hfound
    refine ⟨(pdMatch_iff _ _ _ _ _).mp hspec.2, ?_, ?_⟩
    · intro hob
      dsimp only at hob
      unfold process_domain
      simp only [hw]
      rw [if_neg (by rw [hcmp]; simp), hfound]
      dsimp only
      rw [if_neg (by rw [hob]; simp)]
    · intro hob
      dsimp only at hob
      conv_lhs => unfold process_domain
      simp only [hw]
      rw [if_neg (by rw [hcmp]; simp), hfound]
      dsimp only
      rw [if_pos hob]

/-- The walk result of the concrete successful edge walk on `walkGrid`. -/
def walkRes : WalkResult := ⟨(1/2, 10/7), [(0, 8/7), (1/2, 10/7)], -1, (Fmax, Fmax)⟩

/-- The starting closure state on `walkGrid`: one candidate, empty domain,
unset `next_neighb_coord`. -/
def walkPD : PDState := ⟨[walkVtx], [], (Fmax, Fmax)⟩

/-- Witness for C6_process_domain_step: on `walkGrid` the walk from `walkVtx`
completes with `walkRes`; the walked-to corner does not match the start and
no candidate matches, so the call closes the candidate and returns false. -/
theorem C6_process_domain_step_witness :
    (0 < walkPD.vertices.length ∧
      walk_to_next walkGrid walkField (vAt walkPD 0) 3 walkPD.nnc = Except.ok walkRes) ∧
    ((pdStep walkPD 0 walkRes).vertices.getD 0 default).closed = true ∧
    process_domain walkGrid walkField 3 2 0 default walkPD =
      Except.ok (false, pdStep walkPD 0 walkRes) := by
  have h := C6_process_domain_step walkGrid walkField 3 1 0 default walkPD walkRes
    (by decide) (by decide)
  exact ⟨⟨by decide, by decide⟩, h.1, h.2.2.2.1 (by decide) (by decide)⟩

/-! ### Claim C8: the `closed` flag is monotonic -/

theorem set_oob {α : Type} (l : List α) (n : Nat) (a : α) (h : l.length ≤ n) :
    l.set n a = l := by
  induction l generalizing n with
  | nil => rfl
  | cons x t ih =>
    match n with
    | 0 => exact absurd h (by simp)
    | n + 1 => simp only [List.set_cons_succ]; rw [ih n (by simpa using h)]

/-- Closing one candidate never un-closes another. -/
theorem closed_mono_set (l : List DirichVtx) (n j : Nat)
    (hj : (l.getD j default).closed = true) :
    ((l.set n { l.getD n default with closed := true }).getD j default).closed = true := by
  by_cases hnj : n = j
  · subst hnj
    by_cases hn : n < l.length
    · rw [getD_set_eq _ _ _ _ hn]
    · rw [set_oob _ _ _ (by omega)]
      exact hj
  · rw [getD_set_ne _ _ _ _ _ hnj]
    exact hj

/-- Exhaustive case analysis of one `process_domain` call at positive fuel:
either the walk fails and its error is returned, or the call returns
success, returns failure, or tail-recurses on the (unclosed, non-boundary)
matched candidate with the state advanced by `pdStep`. -/
theorem pd_succ_cases (hg : HexGrid) (f : List ℚ) (wfuel fuel dvIdx : Nat)
    (fv : DirichVtx) (s : PDState) (r : Except WErr (Bool × PDState))
    (h : process_domain hg f wfuel (fuel + 1) dvIdx fv s = r) :
    (∃ e, walk_to_next hg f (s.vertices.getD dvIdx default) wfuel s.nnc =
        Except.error e ∧ r = Except.error e) ∨
    (∃ w, walk_to_next hg f (s.vertices.getD dvIdx default) wfuel s.nnc = Except.ok w ∧
      (r = Except.ok (true, pdStep s dvIdx w) ∨
       r = Except.ok (false, pdStep s dvIdx w) ∨
       ∃ k, (pdStep s dvIdx w).vertices.findIdx?
           (pdMatch (s.vertices.getD dvIdx default).f
             (s.vertices.getD dvIdx default).neighb.1 w.nnd w.ret) = some k ∧
         ((pdStep s dvIdx w).vertices.getD k default).closed = false ∧
         ((pdStep s dvIdx w).vertices.getD k default).onBoundary = false ∧
         r = process_domain hg f wfuel fuel k (pdFv fv (s.vertices.getD dvIdx default))
           (pdStep s dvIdx w))) := by
  unfold process_domain at h
  dsimp only at h
  rcases hw : walk_to_next hg f (s.vertices.getD dvIdx default) wfuel s.nnc with e | w
  · rw [hw] at h
    subst h
    exact Or.inl ⟨e, rfl, rfl⟩
  · rw [hw] at h
    dsimp only at h
    by_cases hcmp : (if DirichVtx.unset fv = true then s.vertices.getD dvIdx default
        else fv).compare w.ret = true
    · rw [if_pos hcmp] at h
      subst h
      exact Or.inr ⟨w, rfl, Or.inl rfl⟩
    · rw [if_neg hcmp] at h
      rcases hfi : (pdStep s dvIdx w).vertices.findIdx?
          (pdMatch (s.vertices.getD dvIdx default).f
            (s.vertices.getD dvIdx default).neighb.1 w.nnd w.ret) with _ | k
      · have hfi2 := hfi
        unfold pdStep vAt at hfi2
        dsimp only at hfi2
        rw [hfi2] at h
        dsimp only at h
        subst h
        exact Or.inr ⟨w, rfl, Or.inr (Or.inl rfl)⟩
      · have hspec := findIdx?_spec _ _ _ hfi
        have hkcl : ((pdStep s dvIdx w).vertices.getD k default).closed = false :=
          ((pdMatch_iff _ _ _ _ _).mp hspec.2).1
        have hfi2 := hfi
        unfold pdStep vAt at hfi2
        dsimp only at hfi2
        rw [hfi2] at h
        dsimp only at h
        by_cases hob : ((pdStep s dvIdx w).vertices.getD k default).onBoundary = false
        · have hob2 := hob
          unfold pdStep vAt at hob2
          dsimp only at hob2
          rw [if_pos hob2] at h
          subst h
          exact Or.inr ⟨w, rfl, Or.inr (Or.inr ⟨k, hfi, hkcl, hob, rfl⟩)⟩
        · have hob2 : ¬ (((s.vertices.set dvIdx
              { s.vertices.getD dvIdx default with closed := true }).getD k
                default).onBoundary = false) := by
            intro hc
            exact hob (by unfold pdStep vAt; dsimp only; exact hc)
          rw [if_neg hob2] at h
          subst h
          exact Or.inr ⟨w, rfl, Or.inr (Or.inl rfl)⟩

theorem pd_closed_mono (hg : HexGrid) (f : List ℚ) (wfuel : Nat) :
    ∀ (fuel dvIdx : Nat) (fv : DirichVtx) (s : PDState) (b : Bool) (s' : PDState),
      process_domain hg f wfuel fuel dvIdx fv s = Except.ok (b, s') →
      ∀ j, (s.vertices.getD j default).closed = true →
        (s'.vertices.getD j default).closed = true := by
  intro fuel
  induction fuel with
  | zero =>
    intro dvIdx fv s b s' hpd
    exact absurd hpd (by unfold process_domain; exact fun h => Except.noConfusion h)
  | succ fuel ih =>
    intro dvIdx fv s b s' hpd j hj
    have hmono : ∀ w : WalkResult,
        ((pdStep s dvIdx w).vertices.getD j default).closed = true := by
      intro w
      unfold pdStep vAt
      dsimp only
      exact closed_mono_set s.vertices dvIdx j hj
    rcases pd_succ_cases hg f wfuel fuel dvIdx fv s _ hpd with
      ⟨e, _, hr⟩ | ⟨w, _, hr | hr | ⟨k, _, _, _, hr⟩⟩
    · exact Except.noConfusion hr
    · injection hr with h1
      injection h1 with _ hs'
      rw [hs']
      exact hmono w
    · injection hr with h1
      injection h1 with _ hs'
      rw [hs']
      exact hmono w
    · exact ih _ _ _ _ _ hr.symm j (hmono w)

theorem dvLoop_closed_mono (hg : HexGrid) (f : List ℚ) (wfuel pfuel : Nat) :
    ∀ (rem dvIdx dc : Nat) (verts : List DirichVtx) (doms doms' : List (List DirichVtx))
      (verts' : List DirichVtx),
      dvLoop hg f wfuel pfuel rem dvIdx dc verts doms = Except.ok (doms', verts') →
      ∀ j, (verts.getD j default).closed = true → (verts'.getD j default).closed = true := by
  intro rem
  induction rem with
  | zero =>
    intro dvIdx dc verts doms doms' verts' h j hj
    unfold dvLoop at h
    cases h
    exact hj
  | succ rem ih =>
    intro dvIdx dc verts doms doms' verts' h j hj
    unfold dvLoop at h
    split at h
    · split at h
      · exact ih _ _ _ _ _ _ h j (closed_mono_set verts dvIdx j hj)
      · split at h
        · exact Except.noConfusion h
        · next succ2 st heq =>
          exact ih _ _ _ _ _ _ h j
            (pd_closed_mono hg f wfuel pfuel dvIdx default ⟨verts, [], (Fmax, Fmax)⟩ _ _ heq j hj)
    · cases h
      exact hj

theorem dvStep1_getD (hg : HexGrid) (f : List ℚ) :
    ∀ (l : List Hex) (acc : List DirichVtx) (j : Nat), j < acc.length →
      ((l.foldl (fun vs h => vs ++ vertex_test hg f h) acc).getD j default =
        acc.getD j default) := by
  intro l
  induction l with
  | nil => intro acc j _; rfl
  | cons h t ih =>
    intro acc j hj
    simp only [List.foldl_cons]
    rw [ih _ j (by simp; omega)]
    exact List.getD_append _ _ _ _ hj

/-- Claim C8: the `closed` flag is monotonic — [first conjunct] a completed
`process_domain` call never resets a candidate's `closed` flag from true to
false, and [second conjunct] neither does a completed `dirichlet_vertices`
run (the walks do not touch the candidate list at all: `walk_common` never
receives it). -/
theorem C8_closed_monotone :
    (∀ (hg : HexGrid) (f : List ℚ) (wfuel fuel dvIdx : Nat) (fv : DirichVtx)
        (s : PDState) (b : Bool) (s' : PDState),
        process_domain hg f wfuel fuel dvIdx fv s = Except.ok (b, s') →
        ∀ j, (s.vertices.getD j default).closed = true →
          (s'.vertices.getD j default).closed = true) ∧
    (∀ (hg : HexGrid) (f : List ℚ) (v0 : List DirichVtx) (wfuel pfuel : Nat)
        (doms : List (List DirichVtx)) (verts' : List DirichVtx),
        dirichlet_vertices hg f v0 wfuel pfuel = Except.ok (doms, verts') →
        ∀ j, (v0.getD j default).closed = true →
          (verts'.getD j default).closed = true) := by
  constructor
  · intro hg f wfuel fuel dvIdx fv s b s' hpd j hj
    exact pd_closed_mono hg f wfuel fuel dvIdx fv s b s' hpd j hj
  · intro hg f v0 wfuel pfuel doms verts' h j hj
    by_cases hjl : j < v0.length
    · have hstep : (dvStep1 hg f v0).getD j default = v0.getD j default :=
        dvStep1_getD hg f hg.hexen v0 j hjl
      exact dvLoop_closed_mono hg f wfuel pfuel _ _ _ _ _ _ _ h j (by rw [hstep]; exact hj)
    · rw [List.getD_eq_default _ _ (by omega)] at hj
      exact absurd hj (by simp [default])

/-- Witness for C8_closed_monotone: a `process_domain` run on `walkGrid` with
a pre-closed second candidate, and a `dirichlet_vertices` run on `cxGridC1`
with a pre-closed fifth candidate; both flags survive. -/
theorem C8_closed_monotone_witness :
    (process_domain walkGrid walkField 3 2 0 default
        ⟨[walkVtx, { walkVtx with closed := true }], [], (Fmax, Fmax)⟩ =
      Except.ok (false, ⟨[{ walkVtx with closed := true }, { walkVtx with closed := true }],
        [{ walkVtx with pathto_next := [(0, 8/7), (1/2, 10/7)] }], (Fmax, Fmax)⟩) ∧
      ([walkVtx, { walkVtx with closed := true }].getD 1 default).closed = true ∧
      ([{ walkVtx with closed := true }, { walkVtx with closed := true }].getD 1
        default).closed = true) ∧
    (dirichlet_vertices cxGridC1 cxFieldC1 [bVtxC1, bVtxC1, bVtxC1, bVtxC1,
        { nVtxC1 with closed := true }] 1 1 =
      Except.ok ([], [{ bVtxC1 with closed := true }, { bVtxC1 with closed := true },
        { bVtxC1 with closed := true }, bVtxC1, { nVtxC1 with closed := true }]) ∧
      ([bVtxC1, bVtxC1, bVtxC1, bVtxC1, { nVtxC1 with closed := true }].getD 4
        default).closed = true ∧
      ([{ bVtxC1 with closed := true }, { bVtxC1 with closed := true },
        { bVtxC1 with closed := true }, bVtxC1, { nVtxC1 with closed := true }].getD 4
        default).closed = true) := by
  refine ⟨⟨by decide, by decide, ?_⟩, ⟨by decide, by decide, ?_⟩⟩
  · exact C8_closed_monotone.1 walkGrid walkField 3 2 0 default
      ⟨[walkVtx, { walkVtx with closed := true }], [], (Fmax, Fmax)⟩ false
      ⟨[{ walkVtx with closed := true }, { walkVtx with closed := true }],
        [{ walkVtx with pathto_next := [(0, 8/7), (1/2, 10/7)] }], (Fmax, Fmax)⟩
      (by decide) 1 (by decide)
  · exact C8_closed_monotone.2 cxGridC1 cxFieldC1
      [bVtxC1, bVtxC1, bVtxC1, bVtxC1, { nVtxC1 with closed := true }] 1 1 []
      [{ bVtxC1 with closed := true }, { bVtxC1 with closed := true },
        { bVtxC1 with closed := true }, bVtxC1, { nVtxC1 with closed := true }]
      (by decide) 4 (by decide)

/-! ### Claim C9: the recursion of `process_domain` terminates -/

/-- The number of candidates not yet closed — the measure consumed by the
closure recursion. -/
def countUnclosed (l : List DirichVtx) : Nat :=
  (l.filter (fun w => !w.closed)).length

theorem countUnclosed_le (l : List DirichVtx) : countUnclosed l ≤ l.length :=
  List.length_filter_le _ _

theorem countUnclosed_pos (l : List DirichVtx) :
    ∀ n, n < l.length → (l.getD n default).closed = false → 1 ≤ countUnclosed l := by
  induction l with
  | nil => intro n hn; exact absurd hn (by simp)
  | cons x t ih =>
    intro n hn h
    match n with
    | 0 =>
      simp only [List.getD_cons_zero] at h
      simp [countUnclosed, List.filter_cons, h]
    | n + 1 =>
      simp only [List.getD_cons_succ] at h
      have := ih n (by simpa using hn) h
      simp only [countUnclosed, List.filter_cons]
      cases hx : !x.closed <;> simp [countUnclosed] at this ⊢ <;> omega

theorem countUnclosed_lt_of_closed (l : List DirichVtx) :
    ∀ n, n < l.length → (l.getD n default).closed = true → countUnclosed l < l.length := by
  induction l with
  | nil => intro n hn; exact absurd hn (by simp)
  | cons x t ih =>
    intro n hn h
    match n with
    | 0 =>
      simp only [List.getD_cons_zero] at h
      have := countUnclosed_le t
      simp [countUnclosed, List.filter_cons, h] at this ⊢
      omega
    | n + 1 =>
      simp only [List.getD_cons_succ] at h
      have := ih n (by simpa using hn) h
      simp only [countUnclosed, List.filter_cons] at this ⊢
      cases hx : !x.closed <;> simp [hx] <;> omega

theorem countUnclosed_set_unclosed (l : List DirichVtx) :
    ∀ n, n < l.length → (l.getD n default).closed = false →
      countUnclosed (l.set n { l.getD n default with closed := true }) + 1 =
        countUnclosed l := by
  induction l with
  | nil => intro n hn; exact absurd hn (by simp)
  | cons x t ih =>
    intro n hn h
    match n with
    | 0 =>
      simp only [List.getD_cons_zero] at h ⊢
      simp [countUnclosed, List.filter_cons, h]
    | n + 1 =>
      simp only [List.getD_cons_succ] at h ⊢
      simp only [List.set_cons_succ, countUnclosed, List.filter_cons]
      have := ih n (by simpa using hn) h
      simp only [countUnclosed] at this
      cases hx : !x.closed <;> simp [hx] at this ⊢ <;> omega

theorem countUnclosed_set_closed (l : List DirichVtx) :
    ∀ n, ¬(n < l.length ∧ (l.getD n default).closed = false) →
      countUnclosed (l.set n { l.getD n default with closed := true }) =
        countUnclosed l := by
  intro n hc
  by_cases hn : n < l.length
  · have hcl : (l.getD n default).closed = true := by
      rcases Bool.eq_false_or_eq_true (l.getD n default).closed with h | h
      · exact h
      · exact absurd ⟨hn, h⟩ hc
    clear hc
    induction l generalizing n with
    | nil => simp at hn
    | cons x t ih =>
      match n with
      | 0 =>
        simp only [List.getD_cons_zero] at hcl
        simp [countUnclosed, List.filter_cons, hcl]
      | n + 1 =>
        simp only [List.getD_cons_succ] at hcl
        simp only [List.set_cons_succ, countUnclosed, List.filter_cons]
        have := ih n (by simpa using hn) hcl
        simp only [countUnclosed] at this
        cases hx : !x.closed <;> simp [hx] at this ⊢ <;> omega
  · rw [set_oob _ _ _ (by omega)]

theorem walkIteration_not_pd (hg : HexGrid) (f : List ℚ) (edgedoms : ℚ × ℚ)
    (st : WalkState) :
    walkIteration hg f edgedoms st ≠ Except.error WErr.pdFuelOut := by
  unfold walkIteration
  rcases h1 : findInitialDirn hg f edgedoms.1 st.hexit_first st.v_init dirList st.hexit
    with ⟨hx1, _ | dirn⟩
  · simp
  · dsimp only
    rcases h2 : findSecond hg f edgedoms.2 st.nnc st.hexit_first dirn with _ | ⟨hn, sdirn⟩
    · simp
    · dsimp only
      rcases h3 : hexHexNeighbDirn dirn sdirn with _ | hhnd
      · simp
      · dsimp only
        by_cases h4 : (hexAt hg hx1).nb hhnd ≠ some hn
        · rw [if_pos h4]
          simp
        · rw [if_neg h4]
          simp

theorem walkLoop_not_pd (hg : HexGrid) (f : List ℚ) (edgedoms : ℚ × ℚ) :
    ∀ (fuel : Nat) (st : WalkState),
      walkLoop hg f edgedoms fuel st ≠ Except.error WErr.pdFuelOut := by
  intro fuel
  induction fuel with
  | zero =>
    intro st
    rw [walkLoop_zero]
    simp
  | succ fuel ih =>
    intro st
    rw [walkLoop_succ]
    rcases hit : walkIteration hg f edgedoms st with e | s2
    · dsimp only
      intro hc
      injection hc with he
      rw [he] at hit
      exact walkIteration_not_pd hg f edgedoms st hit
    · rcases s2 with st2 | ⟨c, st2⟩
      · dsimp only
        exact ih st2
      · dsimp only
        simp

theorem walk_to_next_not_pd (hg : HexGrid) (f : List ℚ) (v : DirichVtx)
    (wfuel : Nat) (nnc : ℚ × ℚ) :
    walk_to_next hg f v wfuel nnc ≠ Except.error WErr.pdFuelOut := by
  unfold walk_to_next walk_common
  exact walkLoop_not_pd hg f _ wfuel _

/-- The fuel demanded by one `process_domain` call: the number of unclosed
candidates, plus one when the entry candidate is already closed or out of
range (it then closes nothing before possibly recursing). -/
def pdNeed (s : PDState) (dvIdx : Nat) : Nat :=
  countUnclosed s.vertices +
    (if dvIdx < s.vertices.length ∧ (s.vertices.getD dvIdx default).closed = false
     then 0 else 1)

theorem pd_fuel_sufficient (hg : HexGrid) (f : List ℚ) (wfuel : Nat) :
    ∀ (fuel dvIdx : Nat) (fv : DirichVtx) (s : PDState),
      pdNeed s dvIdx ≤ fuel →
      process_domain hg f wfuel fuel dvIdx fv s ≠ Except.error WErr.pdFuelOut := by
  intro fuel
  induction fuel with
  | zero =>
    intro dvIdx fv s hle
    exfalso
    unfold pdNeed at hle
    by_cases hc : dvIdx < s.vertices.length ∧ (s.vertices.getD dvIdx default).closed = false
    · rw [if_pos hc] at hle
      have := countUnclosed_pos s.vertices dvIdx hc.1 hc.2
      omega
    · rw [if_neg hc] at hle
      omega
  | succ fuel ih =>
    intro dvIdx fv s hle hc
    rcases pd_succ_cases hg f wfuel fuel dvIdx fv s _ hc with
      ⟨e, hw, hr⟩ | ⟨w, hw, hr | hr | ⟨k, hfi, hkcl, _, hr⟩⟩
    · injection hr with he
      rw [← he] at hw
      exact walk_to_next_not_pd hg f _ wfuel s.nnc hw
    · exact Except.noConfusion hr
    · exact Except.noConfusion hr
    · refine ih k (pdFv fv (s.vertices.getD dvIdx default)) (pdStep s dvIdx w) ?_ hr.symm
      have hklen := (findIdx?_spec _ _ _ hfi).1
      unfold pdNeed
      rw [if_pos ⟨hklen, hkcl⟩]
      have hset : (pdStep s dvIdx w).vertices =
          s.vertices.set dvIdx { s.vertices.getD dvIdx default with closed := true } := rfl
      rw [hset]
      unfold pdNeed at hle
      by_cases hdv : dvIdx < s.vertices.length ∧
          (s.vertices.getD dvIdx default).closed = false
      · rw [if_pos hdv] at hle
        have := countUnclosed_set_unclosed s.vertices dvIdx hdv.1 hdv.2
        omega
      · rw [if_neg hdv] at hle
        have := countUnclosed_set_closed s.vertices dvIdx hdv
        omega

/-- Claim C9: for any candidate list, giving `process_domain` fuel equal to
the number of vertices in the list is always enough — the recursion can
never exhaust it (each level closes its current vertex, and only a
still-unclosed candidate can be matched as the next vertex, so no vertex is
visited twice within one closure attempt). -/
theorem C9_recursion_bounded (hg : HexGrid) (f : List ℚ) (wfuel dvIdx : Nat)
    (fv : DirichVtx) (s : PDState) (hidx : dvIdx < s.vertices.length) :
    process_domain hg f wfuel s.vertices.length dvIdx fv s ≠
      Except.error WErr.pdFuelOut := by
  apply pd_fuel_sufficient
  unfold pdNeed
  by_cases hc : dvIdx < s.vertices.length ∧ (s.vertices.getD dvIdx default).closed = false
  · rw [if_pos hc]
    have := countUnclosed_le s.vertices
    omega
  · rw [if_neg hc]
    have hcl : (s.vertices.getD dvIdx default).closed = true := by
      rcases Bool.eq_false_or_eq_true (s.vertices.getD dvIdx default).closed with h | h
      · exact h
      · exact absurd ⟨hidx, h⟩ hc
    have := countUnclosed_lt_of_closed s.vertices dvIdx hidx hcl
    omega

/-- Witness for C9_recursion_bounded: the single-candidate state on
`walkGrid`, where fuel 1 (the list length) completes without fuel
exhaustion. -/
theorem C9_recursion_bounded_witness :
    0 < walkPD.vertices.length ∧
    process_domain walkGrid walkField 3 walkPD.vertices.length 0 default walkPD ≠
      Except.error WErr.pdFuelOut :=
  ⟨by decide, C9_recursion_bounded walkGrid walkField 3 0 default walkPD (by decide)⟩

end MorphSpec
